import Mathlib

/-!
Shallow embedding of the resilient email service (TypeScript) for verifying
the natural-language specification against the code.

Conventions of the embedding:
* machine time (`Date.now()`) is an `Int` number of milliseconds; JS numeric
  subtraction and comparison become `Int` subtraction and comparison;
* a rejected promise is an `Except.error` / `.err` carrying the error message;
* each method of a stateful class becomes a pure function from the explicit
  state (plus the current time where the source reads `Date.now()`) to the
  updated state;
* an asynchronous operation passed as a callback is modelled by the outcome it
  would produce (`OpResult`), so `circuitBreaker.execute(op)` takes the
  outcome of `op` as data;
* all `Date.now()` reads inside one synchronous call of the orchestrator are
  modelled by a single instant `now`; waits (retry backoff, rate-limiter
  sleep) advance time explicitly where a claim depends on it.
-/

namespace EmailSvc

/-- Status values of `EmailStatus` in `types.ts`. -/
inductive EmailStatus where
  | PENDING
  | SENDING
  | SENT
  | FAILED
  | RETRYING
deriving DecidableEq, Repr

/-- States of `CircuitBreakerState` in `types.ts`. -/
inductive CircuitBreakerState where
  | CLOSED
  | OPEN
  | HALF_OPEN
deriving DecidableEq, Repr

/-- Shape of `EmailMessage` in `types.ts` (attachments are irrelevant to every claim
and omitted; only the identity-bearing fields are kept). -/
structure EmailMessage where
  id : String
  toAddr : String
  fromAddr : String
  subject : String
  body : String
deriving DecidableEq, Repr

/-- Shape of `EmailSendResult` in `types.ts`. -/
structure EmailSendResult where
  success : Bool
  messageId : Option String := none
  error : Option String := none
  duration : Int := 0
deriving DecidableEq, Repr

/-- Shape of `CircuitBreakerConfig` in `types.ts` (`monitoringPeriodMs` is unused by
the implementation and omitted). -/
structure CircuitBreakerConfig where
  failureThreshold : Nat
  resetTimeoutMs : Int
deriving DecidableEq, Repr

/-- Shape of `RetryConfig` in `types.ts` (delay fields only shape the sleep lengths,
which no claim settled here depends on, so only `maxRetries` is carried). -/
structure RetryConfig where
  maxRetries : Nat
deriving DecidableEq, Repr

/-- Shape of `RateLimitConfig` in `types.ts`. -/
structure RateLimitConfig where
  maxRequestsPerMinute : Nat
  windowSizeMs : Int
deriving DecidableEq, Repr

/-- Outcome of an asynchronous operation: the promise resolved with a value or
rejected with an error message. -/
inductive OpResult (α : Type) where
  | ok (a : α)
  | err (e : String)
deriving DecidableEq, Repr

/-- Mutable fields of the `CircuitBreaker` class in `utils/circuit-breaker.ts`. -/
structure CircuitBreaker where
  state : CircuitBreakerState := .CLOSED
  failureCount : Nat := 0
  lastFailureTime : Int := 0
  successCount : Nat := 0
deriving DecidableEq, Repr

namespace CircuitBreaker

/-- Source: `CircuitBreaker.shouldAttemptReset` — `Date.now() - lastFailureTime >= resetTimeoutMs`. -/
def shouldAttemptReset (cfg : CircuitBreakerConfig) (cb : CircuitBreaker) (now : Int) : Bool :=
  now - cb.lastFailureTime ≥ cfg.resetTimeoutMs

/-- Source: `CircuitBreaker.onSuccess` — reset the failure counter; in HALF_OPEN
count consecutive successes and close after the 3rd. -/
def onSuccess (cb : CircuitBreaker) : CircuitBreaker :=
  let cb := { cb with failureCount := 0 }
  if cb.state = .HALF_OPEN then
    let cb := { cb with successCount := cb.successCount + 1 }
    if cb.successCount ≥ 3 then
      { cb with state := .CLOSED, successCount := 0 }
    else
      cb
  else
    cb

/-- Source: `CircuitBreaker.onFailure` — count the failure, record its time; a
HALF_OPEN breaker reopens at once, a CLOSED one opens at the threshold. -/
def onFailure (cfg : CircuitBreakerConfig) (cb : CircuitBreaker) (now : Int) : CircuitBreaker :=
  let cb := { cb with failureCount := cb.failureCount + 1, lastFailureTime := now }
  if cb.state = .HALF_OPEN then
    { cb with state := .OPEN, successCount := 0 }
  else if cb.failureCount ≥ cfg.failureThreshold then
    { cb with state := .OPEN }
  else
    cb

/-- Result of one `execute` call: the promise outcome, the breaker state afterwards,
and whether the wrapped operation was invoked at all. `rejected` is the
`Circuit breaker is OPEN - operation rejected` fast-fail throw. -/
structure ExecOutcome (α : Type) where
  result : OpResult α
  breaker : CircuitBreaker
  invoked : Bool
deriving Repr

/-- Message of the fast-fail throw in `CircuitBreaker.execute`. -/
def breakerOpenMsg : String := "Circuit breaker is OPEN - operation rejected"

/-- Source: `CircuitBreaker.execute` — an OPEN breaker either moves to HALF_OPEN
(timeout elapsed) and runs the operation, or throws without running it; otherwise
the operation runs and `onSuccess`/`onFailure` applies to its outcome. -/
def execute (cfg : CircuitBreakerConfig) (cb : CircuitBreaker) (now : Int)
    (op : OpResult α) : ExecOutcome α :=
  let run : CircuitBreaker → ExecOutcome α := fun cb =>
    match op with
    | .ok a => ⟨.ok a, onSuccess cb, true⟩
    | .err e => ⟨.err e, onFailure cfg cb now, true⟩
  if cb.state = .OPEN then
    if shouldAttemptReset cfg cb now then
      run { cb with state := .HALF_OPEN }
    else
      ⟨.err breakerOpenMsg, cb, false⟩
  else
    run cb

/-- Source: `CircuitBreaker.reset`. -/
def reset (_cb : CircuitBreaker) : CircuitBreaker :=
  { state := .CLOSED, failureCount := 0, successCount := 0, lastFailureTime := 0 }

end CircuitBreaker

/-- Fold a sequence of failing `execute` calls (time and error text per call) into a
breaker. Mirrors a caller that awaits each call in turn and ignores the thrown
errors, as the tests in `circuit-breaker.test.ts` do. -/
def applyFailures (cfg : CircuitBreakerConfig) (cb : CircuitBreaker) :
    List (Int × String) → CircuitBreaker
  | [] => cb
  | (t, e) :: rest =>
      applyFailures cfg (CircuitBreaker.execute cfg cb t (OpResult.err (α := Unit) e)).breaker rest

/-- Fold a sequence of successful `execute` calls into a breaker; success outcomes
carry no data the breaker looks at, so a unit value stands for them. -/
def applySuccesses (cfg : CircuitBreakerConfig) (cb : CircuitBreaker) (now : Int) :
    Nat → CircuitBreaker
  | 0 => cb
  | k + 1 =>
      applySuccesses cfg (CircuitBreaker.execute cfg cb now (OpResult.ok ())).breaker now k

/-- Result of `RetryManager.executeWithRetry` together with the number of times the
wrapped operation was invoked. -/
structure RetryOutcome (α : Type) where
  result : OpResult α
  invocations : Nat
deriving DecidableEq, Repr

/-- Source: the `for (attempt = 1; attempt <= maxRetries + 1; attempt++)` loop of
`RetryManager.executeWithRetry` in `utils/retry-manager.ts`. `ops k` is the outcome
the operation produces on its `k`-th invocation (1-based). A success returns at
once; a failure on an attempt with `attempt > maxRetries` propagates that very
error, otherwise the loop sleeps and retries. The sleep lengths do not affect the
returned value and are not modelled here. -/
def executeWithRetryGo (maxRetries : Nat) (ops : Nat → OpResult α) (attempt : Nat) :
    RetryOutcome α :=
  match ops attempt with
  | .ok a => ⟨.ok a, 1⟩
  | .err e =>
      if attempt > maxRetries then
        ⟨.err e, 1⟩
      else
        let rest := executeWithRetryGo maxRetries ops (attempt + 1)
        ⟨rest.result, rest.invocations + 1⟩
termination_by maxRetries + 1 - attempt
decreasing_by
  simp_wf
  omega

/-- Source: `RetryManager.executeWithRetry`, starting at attempt 1. -/
def executeWithRetry (maxRetries : Nat) (ops : Nat → OpResult α) : RetryOutcome α :=
  executeWithRetryGo maxRetries ops 1

/-- Outcome of one evaluation of the body of `RateLimiter.checkRateLimit`: either the
call records `now` and returns, or it must sleep before re-evaluating. The pruned
request list accompanies both cases because the source assigns the filtered array
back to `this.requests` before deciding. `wait none` models `Math.min()` of an empty
array being `Infinity` (reachable only with `maxRequestsPerMinute = 0`). -/
inductive LimiterStep where
  | proceed (requests : List Int)
  | wait (requests : List Int) (waitTime : Option Int)
deriving DecidableEq, Repr

/-- Source: one pass of `RateLimiter.checkRateLimit` in `utils/rate-limiter.ts`:
prune entries at or before `now - windowSizeMs`, and if the remainder still fills
the window compute `oldest + windowSizeMs - now`; a positive wait suspends and
re-evaluates, otherwise `now` is pushed. -/
def checkRateLimitStep (cfg : RateLimitConfig) (requests : List Int) (now : Int) :
    LimiterStep :=
  let windowStart := now - cfg.windowSizeMs
  let pruned := requests.filter (fun t => t > windowStart)
  if pruned.length ≥ cfg.maxRequestsPerMinute then
    match pruned.min? with
    | none => .wait pruned none
    | some oldest =>
        let waitTime := oldest + cfg.windowSizeMs - now
        if waitTime > 0 then
          .wait pruned (some waitTime)
        else
          .proceed (pruned ++ [now])
  else
    .proceed (pruned ++ [now])

/-- Source: `RateLimiter.checkRateLimit` with its tail call `return this.checkRateLimit()`
after the sleep. The function returns the completion time (when the request is
recorded and the promise resolves) and the request list afterwards; `none` means
the recursion did not finish within `fuel` re-evaluations (the source recursion is
unbounded). Sleeping for `w` advances the clock to `now + w`. -/
def checkRateLimit (cfg : RateLimitConfig) : Nat → List Int → Int → Option (Int × List Int)
  | fuel, requests, now =>
    match checkRateLimitStep cfg requests now with
    | .proceed requests => some (now, requests)
    | .wait _ none => none
    | .wait pruned (some w) =>
        match fuel with
        | 0 => none
        | fuel + 1 => checkRateLimit cfg fuel pruned (now + w)

/-- Lookup in a JS `Map` modelled as an association list with unique keys. -/
def lookupA (l : List (String × β)) (k : String) : Option β :=
  (l.find? (fun p => p.1 = k)).map (fun p => p.2)

/-- Update for a JS `Map.set`: replace the existing entry for the key or append a
new one. -/
def setA : List (String × β) → String → β → List (String × β)
  | [], k, v => [(k, v)]
  | (k', v') :: rest, k, v =>
      if k' = k then (k, v) :: rest else (k', v') :: setA rest k v

/-- Deletion for a JS `Map.delete` (keys are unique, so removing the first entry
with the key is exact). -/
def eraseA : List (String × β) → String → List (String × β)
  | [], _ => []
  | (k', v') :: rest, k =>
      if k' = k then rest else (k', v') :: eraseA rest k

/-- Shape of `IdempotencyRecord` in `utils/idempotency-manager.ts`; the untyped
`result?: any` holds the `EmailSendResult` the service caches. -/
structure IdempotencyRecord where
  emailId : String
  timestamp : Int
  result : Option EmailSendResult := none
  completed : Bool
deriving DecidableEq, Repr

namespace Idempotency

/-- Source: `IdempotencyManager.isExpired` — `Date.now() - timestamp > ttlMs`. -/
def isExpired (ttlMs : Int) (r : IdempotencyRecord) (now : Int) : Bool :=
  now - r.timestamp > ttlMs

/-- Source: `IdempotencyManager.isDuplicate`; observing an expired record evicts it,
so the record map comes back updated. -/
def isDuplicate (records : List (String × IdempotencyRecord)) (ttlMs : Int)
    (emailId : String) (now : Int) : Bool × List (String × IdempotencyRecord) :=
  match lookupA records emailId with
  | none => (false, records)
  | some r =>
      if isExpired ttlMs r now then
        (false, eraseA records emailId)
      else
        (true, records)

/-- Source: `IdempotencyManager.getResult` — the cached value only for a live,
completed record. -/
def getResult (records : List (String × IdempotencyRecord)) (ttlMs : Int)
    (emailId : String) (now : Int) : Option EmailSendResult :=
  match lookupA records emailId with
  | none => none
  | some r =>
      if isExpired ttlMs r now ∨ ¬r.completed then none else r.result

/-- Source: `IdempotencyManager.markInProgress` — overwrites any record for the id. -/
def markInProgress (records : List (String × IdempotencyRecord)) (emailId : String)
    (now : Int) : List (String × IdempotencyRecord) :=
  setA records emailId { emailId := emailId, timestamp := now, completed := false }

/-- Source: `IdempotencyManager.markCompleted` — no-op when the record is missing. -/
def markCompleted (records : List (String × IdempotencyRecord)) (emailId : String)
    (res : EmailSendResult) : List (String × IdempotencyRecord) :=
  match lookupA records emailId with
  | none => records
  | some r => setA records emailId { r with completed := true, result := some res }

/-- Source: `IdempotencyManager.remove`. -/
def removeRecord (records : List (String × IdempotencyRecord)) (emailId : String) :
    List (String × IdempotencyRecord) :=
  eraseA records emailId

end Idempotency

/-- Shape of `QueueItem` in `utils/email-queue.ts`. -/
structure QueueItem where
  email : EmailMessage
  priority : Int
  attempts : Nat
  lastAttempt : Option Int := none
  nextAttempt : Option Int := none
  status : EmailStatus
deriving DecidableEq, Repr

namespace EmailQueue

/-- Fresh item as built at the top of `EmailQueue.enqueue`. -/
def mkPendingItem (email : EmailMessage) (priority : Int) : QueueItem :=
  { email := email, priority := priority, attempts := 0, status := .PENDING }

/-- Source: `EmailQueue.enqueue` — `findIndex(queueItem => queueItem.priority < priority)`
then `push` or `splice(insertIndex, 0, item)`. -/
def enqueue (q : List QueueItem) (email : EmailMessage) (priority : Int) : List QueueItem :=
  let item := mkPendingItem email priority
  match q.findIdx? (fun qi => qi.priority < priority) with
  | none => q ++ [item]
  | some i => q.take i ++ item :: q.drop i

/-- Fold `enqueue` over a list of (message, priority) submissions. -/
def enqueueAll (q : List QueueItem) : List (EmailMessage × Int) → List QueueItem
  | [] => q
  | (m, p) :: rest => enqueueAll (enqueue q m p) rest

/-- Eligibility test used by `EmailQueue.getNextItem`: `PENDING`, or `RETRYING` with
`nextAttempt <= now` (a `Date` object is always truthy). -/
def eligible (now : Int) (item : QueueItem) : Bool :=
  item.status = .PENDING ||
    (item.status = .RETRYING &&
      match item.nextAttempt with
      | some t => t ≤ now
      | none => false)

/-- Source: `EmailQueue.getNextItem` — `this.queue.find(...)`. -/
def getNextItem (now : Int) (q : List QueueItem) : Option QueueItem :=
  q.find? (eligible now)

/-- Source: `EmailQueue.removeItem` — `findIndex` on the email id, then `splice(index, 1)`. -/
def removeItem (q : List QueueItem) (emailId : String) : List QueueItem :=
  match q.findIdx? (fun item => item.email.id = emailId) with
  | none => q
  | some i => q.take i ++ q.drop (i + 1)

/-- Split the queue at the first eligible item, mirroring `find` while exposing the
items before and after it so that the in-place mutation of the found item can be
modelled. `splitAtEligible now q = some (pre, it, post)` iff `q = pre ++ it :: post`,
nothing in `pre` is eligible and `it` is. -/
def splitAtEligible (now : Int) : List QueueItem →
    Option (List QueueItem × QueueItem × List QueueItem)
  | [] => none
  | item :: rest =>
      if eligible now item then
        some ([], item, rest)
      else
        match splitAtEligible now rest with
        | none => none
        | some (pre, it, post) => some (item :: pre, it, post)

/-- Source: the `while (this.queue.length > 0)` loop of `EmailQueue.startProcessing`,
with the registered processor modelled by the outcome it produces on each message.
Returns the sequence of processor invocations (in order) and the final queue;
`none` means the loop did not finish within `fuel` iterations. An idle pass sleeps
1000 ms; every processed item is followed by a 100 ms sleep; a retry is scheduled
at `now + 2^attempts * 1000`; an item on its 3rd failed attempt is marked FAILED
and removed. -/
def processLoop (proc : EmailMessage → OpResult Unit) :
    Nat → Int → List QueueItem → Option (List EmailMessage × List QueueItem)
  | 0, _, _ => none
  | fuel + 1, now, q =>
    if q.isEmpty then
      some ([], q)
    else
      match splitAtEligible now q with
      | none => processLoop proc fuel (now + 1000) q
      | some (pre, item, post) =>
          let item' : QueueItem :=
            { item with status := .SENDING, attempts := item.attempts + 1, lastAttempt := some now }
          let next :=
            match proc item.email with
            | .ok _ => removeItem (pre ++ item' :: post) item'.email.id
            | .err _ =>
                if item'.attempts ≥ 3 then
                  removeItem (pre ++ { item' with status := .FAILED } :: post) item'.email.id
                else
                  let retryItem : QueueItem :=
                    { item' with
                      status := .RETRYING
                      nextAttempt := some (now + 2 ^ item'.attempts * 1000) }
                  pre ++ retryItem :: post
          match processLoop proc fuel (now + 100) next with
          | none => none
          | some (ord, qf) => some (item.email :: ord, qf)

/-- Source: `EmailQueue.getStats` — counts of items by status plus the total. -/
structure QueueStats where
  total : Nat
  pending : Nat
  sending : Nat
  retrying : Nat
  failed : Nat
deriving DecidableEq, Repr

/-- Source: `EmailQueue.getStats`. -/
def getStats (q : List QueueItem) : QueueStats :=
  { total := q.length
    pending := (q.filter (fun i => i.status = .PENDING)).length
    sending := (q.filter (fun i => i.status = .SENDING)).length
    retrying := (q.filter (fun i => i.status = .RETRYING)).length
    failed := (q.filter (fun i => i.status = .FAILED)).length }

/-- Source: `EmailQueue.size`. -/
def size (q : List QueueItem) : Nat := q.length

/-- Recursive form of the `findIndex`/`splice` insertion in `enqueue`: place the new
item before the first strictly lower-priority item. -/
def insertByPriority (x : QueueItem) : List QueueItem → List QueueItem
  | [] => [x]
  | a :: q => if a.priority < x.priority then x :: a :: q else a :: insertByPriority x q

/-- Dequeue precedence between adjacent queue items: the earlier item has the
higher-or-equal priority. -/
def qge (a b : QueueItem) : Prop := b.priority ≤ a.priority

/-- Shape of a queue item re-queued by the processing loop after a non-final
failure: attempt counted, marked RETRYING, eligible again at
`now + 2^attempts * 1000`. -/
def retriedItem (item : QueueItem) (now : Int) : QueueItem :=
  { item with
    status := .RETRYING
    attempts := item.attempts + 1
    lastAttempt := some now
    nextAttempt := some (now + 2 ^ (item.attempts + 1) * 1000) }

end EmailQueue

/-- Shape of `EmailAttempt` in `types.ts`. -/
structure EmailAttempt where
  id : String
  emailId : String
  provider : String
  status : EmailStatus
  attempt : Nat
  timestamp : Int
  error : Option String := none
  duration : Option Int := none
deriving DecidableEq, Repr

/-- A delivery backend as the orchestrator sees it: a name plus the outcome its
`sendEmail` promise produces (`ok` resolves — possibly with `success: false` — and
`err` rejects). Backends are stateless, so one outcome per provider captures any
single pass over them. -/
structure Provider where
  name : String
  behavior : OpResult EmailSendResult
deriving DecidableEq, Repr

/-- Fields of `EmailServiceConfig` in `types.ts` that the orchestrator reads. -/
structure EmailServiceConfig where
  retry : RetryConfig
  rateLimit : RateLimitConfig
  circuitBreaker : CircuitBreakerConfig
  enableIdempotency : Bool
  idempotencyTtlMs : Int
deriving DecidableEq, Repr

/-- Mutable fields of the `EmailService` class in `email-service.ts`. -/
structure EmailService where
  providers : List Provider
  primaryProviderIndex : Nat
  circuitBreakers : List (String × CircuitBreaker)
  rateLimiterRequests : List Int
  idempotencyRecords : List (String × IdempotencyRecord)
  attempts : List (String × List EmailAttempt)
  config : EmailServiceConfig
deriving DecidableEq, Repr

/-- Placeholder provider for the (unreachable) out-of-bounds index read; the source
indexes with `providers[providerIndex]` where `providerIndex < providers.length`. -/
def dummyProvider : Provider :=
  { name := "", behavior := .err "" }

namespace EmailService

/-- Source: the constructor of `EmailService` — one fresh breaker per provider, all
other state empty. -/
def mkService (providers : List Provider) (cfg : EmailServiceConfig) : EmailService :=
  { providers := providers
    primaryProviderIndex := 0
    circuitBreakers := providers.map (fun p => (p.name, ({} : CircuitBreaker)))
    rateLimiterRequests := []
    idempotencyRecords := []
    attempts := []
    config := cfg }

/-- Breaker lookup `this.circuitBreakers.get(provider.name)!`; the constructor
guarantees presence, so a default CLOSED breaker stands for the impossible miss. -/
def breakerOf (svc : EmailService) (name : String) : CircuitBreaker :=
  (lookupA svc.circuitBreakers name).getD {}

/-- Store an updated breaker back under the provider's name. -/
def setBreaker (svc : EmailService) (name : String) (cb : CircuitBreaker) : EmailService :=
  { svc with circuitBreakers := setA svc.circuitBreakers name cb }

/-- Source: `EmailService.recordAttempt` — append a SENDING attempt whose per-provider
sequence number counts the existing attempts for that provider. Returns the index
of the new attempt in the email's list (standing for the object reference the
source keeps) together with the updated service. -/
def recordAttempt (svc : EmailService) (emailId providerName : String) (now : Int) :
    Nat × EmailService :=
  let prior := (lookupA svc.attempts emailId).getD []
  let attemptNumber := (prior.filter (fun a => a.provider = providerName)).length + 1
  let attempt : EmailAttempt :=
    { id := emailId ++ "-" ++ providerName ++ "-" ++ toString attemptNumber
      emailId := emailId
      provider := providerName
      status := .SENDING
      attempt := attemptNumber
      timestamp := now }
  (prior.length, { svc with attempts := setA svc.attempts emailId (prior ++ [attempt]) })

/-- Source: `EmailService.updateAttempt` — mutate the referenced attempt's status,
error and duration; the reference is the index returned by `recordAttempt`. -/
def updateAttemptAt (svc : EmailService) (emailId : String) (idx : Nat)
    (status : EmailStatus) (error : Option String) (duration : Option Int) : EmailService :=
  let lst := (lookupA svc.attempts emailId).getD []
  let lst' := lst.modify (fun a => { a with status := status, error := error, duration := duration }) idx
  { svc with attempts := setA svc.attempts emailId lst' }

/-- Source: `EmailService.getEmailAttempts`. -/
def getEmailAttempts (svc : EmailService) (emailId : String) : List EmailAttempt :=
  (lookupA svc.attempts emailId).getD []

/-- Result of one `sendWithFallback` call: the promise outcome (`Except.error` is the
final `throw lastError || new Error('All providers failed')`), the service state
afterwards, and how many times a provider's `sendEmail` ran. -/
structure FallbackOutcome where
  result : Except String EmailSendResult
  svc : EmailService
  invoked : Nat
deriving Repr

/-- Source: the `for (let i = 0; ...)` loop body of `EmailService.sendWithFallback`.
`remaining` counts the iterations left (`providers.length - i`). A provider whose
breaker reads OPEN is skipped outright; otherwise the call goes through
`circuitBreaker.execute`, whose wrapped operation appends an attempt record and
finalizes it to SENT or FAILED according to the provider's outcome. A resolved
result with `success` switches the sticky primary index and returns; a resolved
result without `success` falls through to the next provider leaving `lastError`
unchanged; a rejection becomes the new `lastError`. -/
def sendWithFallbackGo (msg : EmailMessage) (now : Int) :
    Nat → Nat → Option String → Nat → EmailService → FallbackOutcome
  | 0, _, lastError, invoked, svc =>
      ⟨.error (lastError.getD "All providers failed"), svc, invoked⟩
  | remaining + 1, i, lastError, invoked, svc =>
      let providerIndex := (svc.primaryProviderIndex + i) % svc.providers.length
      let provider := svc.providers.getD providerIndex dummyProvider
      let cb := breakerOf svc provider.name
      if cb.state = .OPEN then
        sendWithFallbackGo msg now remaining (i + 1) lastError invoked svc
      else
        let exec := CircuitBreaker.execute svc.config.circuitBreaker cb now provider.behavior
        let svcA :=
          if exec.invoked then
            let (idx, svc1) := recordAttempt svc msg.id provider.name now
            match exec.result with
            | .ok r => updateAttemptAt svc1 msg.id idx .SENT none (some r.duration)
            | .err e => updateAttemptAt svc1 msg.id idx .FAILED (some e) none
          else
            svc
        let svcB := setBreaker svcA provider.name exec.breaker
        let invoked' := invoked + (if exec.invoked then 1 else 0)
        match exec.result with
        | .ok r =>
            if r.success then
              let svcC :=
                if providerIndex ≠ svc.primaryProviderIndex then
                  { svcB with primaryProviderIndex := providerIndex }
                else
                  svcB
              ⟨.ok r, svcC, invoked'⟩
            else
              sendWithFallbackGo msg now remaining (i + 1) lastError invoked' svcB
        | .err e =>
            sendWithFallbackGo msg now remaining (i + 1) (some e) invoked' svcB

/-- Source: `EmailService.sendWithFallback`. -/
def sendWithFallback (svc : EmailService) (msg : EmailMessage) (now : Int) : FallbackOutcome :=
  sendWithFallbackGo msg now svc.providers.length 0 none 0 svc

/-- Source: `RetryManager.executeWithRetry` as instantiated by `sendEmail` with
`() => this.sendWithFallback(message)`: the same attempt loop as
`executeWithRetryGo`, threading the service state the fallback pass mutates.
`remaining` counts the retries still allowed (`maxRetries + 1 - attempt`), so the
loop's `attempt > maxRetries` exit is `remaining = 0`. Backoff sleeps between
attempts are not modelled (nothing a claim settles here reads the clock between
attempts). -/
def retryFallbackGo (msg : EmailMessage) (now : Int) :
    Nat → EmailService → Nat → FallbackOutcome
  | remaining, svc, invoked =>
    let fb := sendWithFallback svc msg now
    match fb.result with
    | .ok r => ⟨.ok r, fb.svc, invoked + fb.invoked⟩
    | .error e =>
        match remaining with
        | 0 => ⟨.error e, fb.svc, invoked + fb.invoked⟩
        | rem + 1 => retryFallbackGo msg now rem fb.svc (invoked + fb.invoked)

/-- Source: `EmailService.sendEmail`. Returns the resolved `EmailSendResult`, the
service state afterwards and the number of provider invocations; `none` only when
the rate limiter's unbounded re-check recursion exceeds `limiterFuel` (the call
then never resolves — it never rejects). Steps: idempotency short-circuit for a
live completed record, `markInProgress`, rate-limiter gate, retry-wrapped
fallback, then `markCompleted` on success or record removal plus a
`success: false` outcome built from the caught error on failure. -/
def sendEmail (svc : EmailService) (msg : EmailMessage) (now : Int) (limiterFuel : Nat) :
    Option (EmailSendResult × EmailService × Nat) :=
  let ttl := svc.config.idempotencyTtlMs
  let dupStep :=
    if svc.config.enableIdempotency then
      let (dup, records') := Idempotency.isDuplicate svc.idempotencyRecords ttl msg.id now
      let svc' := { svc with idempotencyRecords := records' }
      if dup then
        match Idempotency.getResult records' ttl msg.id now with
        | some cached => Sum.inl (cached, svc')
        | none => Sum.inr svc'
      else
        Sum.inr svc'
    else
      Sum.inr svc
  match dupStep with
  | Sum.inl (cached, svc') => some (cached, svc', 0)
  | Sum.inr svcA =>
    let svcB :=
      if svcA.config.enableIdempotency then
        { svcA with idempotencyRecords := Idempotency.markInProgress svcA.idempotencyRecords msg.id now }
      else
        svcA
    match checkRateLimit svcB.config.rateLimit limiterFuel svcB.rateLimiterRequests now with
    | none => none
    | some (t1, requests') =>
      let svcC := { svcB with rateLimiterRequests := requests' }
      let rf := retryFallbackGo msg t1 svcC.config.retry.maxRetries svcC 0
      match rf.result with
      | .ok result =>
          let svcD :=
            if rf.svc.config.enableIdempotency then
              { rf.svc with idempotencyRecords :=
                  Idempotency.markCompleted rf.svc.idempotencyRecords msg.id result }
            else
              rf.svc
          some (result, svcD, rf.invoked)
      | .error e =>
          let svcD :=
            if rf.svc.config.enableIdempotency then
              { rf.svc with idempotencyRecords :=
                  Idempotency.removeRecord rf.svc.idempotencyRecords msg.id }
            else
              rf.svc
          some ({ success := false, error := some e, duration := 0 }, svcD, rf.invoked)

end EmailService

/-- Configuration for the trial-eligibility probe: one retry-less send, idempotency
off, breaker threshold 3 with a 1000 ms reset timeout. -/
def openElapsedCfg : EmailServiceConfig :=
  { retry := ⟨0⟩
    rateLimit := ⟨10, 60000⟩
    circuitBreaker := ⟨3, 1000⟩
    enableIdempotency := false
    idempotencyTtlMs := 3600000 }

/-- One-backend service whose breaker is OPEN with its last failure at time 0, so
that at probe time 5000 the 1000 ms reset timeout has long elapsed: the scenario
separating "skip whenever OPEN" from "skip only when OPEN and not yet eligible for
a trial". The backend itself would deliver successfully if called. -/
def openElapsedSvc : EmailService :=
  { providers := [⟨"Primary", .ok { success := true, messageId := some "ok-1", duration := 1 }⟩]
    primaryProviderIndex := 0
    circuitBreakers :=
      [("Primary", { state := .OPEN, failureCount := 3, lastFailureTime := 0, successCount := 0 })]
    rateLimiterRequests := []
    idempotencyRecords := []
    attempts := []
    config := openElapsedCfg }

/-- Probe message for the concrete scenarios. -/
def probeMsg : EmailMessage := ⟨"m1", "to", "from", "subj", "body"⟩

/-- Fresh one-backend service whose backend resolves with `success: false` (a
"soft" failure object instead of a rejected promise). -/
def resolveFalseSvc : EmailService :=
  EmailService.mkService
    [⟨"Primary", .ok { success := false, error := some "bounced", duration := 2 }⟩]
    openElapsedCfg

/-- Configuration with idempotency enabled (one retry, 1 hour TTL). -/
def idemCfg : EmailServiceConfig :=
  { retry := ⟨1⟩
    rateLimit := ⟨10, 60000⟩
    circuitBreaker := ⟨3, 1000⟩
    enableIdempotency := true
    idempotencyTtlMs := 3600000 }

/-- Fresh one-backend service whose backend delivers successfully, with
idempotency enabled. -/
def okSvc : EmailService :=
  EmailService.mkService
    [⟨"Primary", .ok { success := true, messageId := some "ok-1", duration := 1 }⟩] idemCfg

/-- State of `okSvc` after one successful `sendEmail` of `probeMsg` at t = 1000:
the timestamp recorded in the rate window, a completed idempotency record caching
the outcome, and one SENT attempt. -/
def okSvcAfter : EmailService :=
  { providers :=
      [⟨"Primary", .ok { success := true, messageId := some "ok-1", duration := 1 }⟩]
    primaryProviderIndex := 0
    circuitBreakers := [("Primary", {})]
    rateLimiterRequests := [1000]
    idempotencyRecords :=
      [("m1",
        { emailId := "m1"
          timestamp := 1000
          result := some { success := true, messageId := some "ok-1", duration := 1 }
          completed := true })]
    attempts :=
      [("m1",
        [{ id := "m1-Primary-1"
           emailId := "m1"
           provider := "Primary"
           status := .SENT
           attempt := 1
           timestamp := 1000
           error := none
           duration := some 1 }])]
    config := idemCfg }

/-- Fresh one-backend service whose backend always rejects, idempotency enabled. -/
def rejectSvc : EmailService :=
  EmailService.mkService [⟨"Primary", .err "smtp 550"⟩] idemCfg

/-- State of `rejectSvc` after one failing `sendEmail` of `probeMsg` at t = 1000:
two FAILED attempts (initial + one retry), breaker failure count 2, the rate
window holding the call, and no idempotency record left. -/
def rejectSvcAfter : EmailService :=
  { providers := [⟨"Primary", .err "smtp 550"⟩]
    primaryProviderIndex := 0
    circuitBreakers :=
      [("Primary", { state := .CLOSED, failureCount := 2, lastFailureTime := 1000 })]
    rateLimiterRequests := [1000]
    idempotencyRecords := []
    attempts :=
      [("m1",
        [{ id := "m1-Primary-1"
           emailId := "m1"
           provider := "Primary"
           status := .FAILED
           attempt := 1
           timestamp := 1000
           error := some "smtp 550"
           duration := none },
         { id := "m1-Primary-2"
           emailId := "m1"
           provider := "Primary"
           status := .FAILED
           attempt := 2
           timestamp := 1000
           error := some "smtp 550"
           duration := none }])]
    config := idemCfg }

/-! Helper lemmas about the retry executor. -/

theorem executeWithRetryGo_allFail {α : Type} (n : Nat) (ops : Nat → OpResult α)
    (errs : Nat → String) :
    ∀ d attempt, attempt + d = n + 1 → 1 ≤ attempt →
      (∀ k, attempt ≤ k → k ≤ n + 1 → ops k = .err (errs k)) →
      executeWithRetryGo n ops attempt = ⟨.err (errs (n + 1)), d + 1⟩ := by
  intro d
  induction d with
  | zero =>
      intro attempt hsum h1 hops
      have ha : attempt = n + 1 := by omega
      subst ha
      rw [executeWithRetryGo]
      rw [hops (n + 1) le_rfl le_rfl]
      simp
  | succ d ih =>
      intro attempt hsum h1 hops
      rw [executeWithRetryGo]
      rw [hops attempt le_rfl (by omega)]
      simp only
      have hnotlast : ¬ attempt > n := by omega
      rw [if_neg hnotlast]
      rw [ih (attempt + 1) (by omega) (by omega) (fun k hk1 hk2 => hops k (by omega) hk2)]

theorem executeWithRetryGo_firstSuccess {α : Type} (n : Nat) (ops : Nat → OpResult α)
    (j : Nat) (a : α) (hj : j ≤ n + 1) (hja : ops j = .ok a) :
    ∀ d attempt, attempt + d = j → 1 ≤ attempt →
      (∀ k, attempt ≤ k → k < j → ∃ e, ops k = .err e) →
      executeWithRetryGo n ops attempt = ⟨.ok a, d + 1⟩ := by
  intro d
  induction d with
  | zero =>
      intro attempt hsum h1 hops
      have ha : attempt = j := by omega
      subst ha
      rw [executeWithRetryGo, hja]
  | succ d ih =>
      intro attempt hsum h1 hops
      obtain ⟨e, he⟩ := hops attempt le_rfl (by omega)
      rw [executeWithRetryGo, he]
      simp only
      have hnotlast : ¬ attempt > n := by omega
      rw [if_neg hnotlast]
      rw [ih (attempt + 1) (by omega) (by omega) (fun k hk1 hk2 => hops k (by omega) hk2)]

/-- C4: with `maxRetries = n`, an operation failing on every attempt is invoked
exactly `n + 1` times and the final error is exactly the error of the last
invocation; and whenever the `j`-th invocation is the first to succeed (within
the allowed attempts), its result comes back after exactly `j` invocations. -/
theorem executeWithRetry_retry_contract {α : Type} (n : Nat) (ops : Nat → OpResult α) :
    (∀ errs : Nat → String,
        (∀ k, 1 ≤ k → k ≤ n + 1 → ops k = .err (errs k)) →
        executeWithRetry n ops = ⟨.err (errs (n + 1)), n + 1⟩) ∧
    (∀ j a, 1 ≤ j → j ≤ n + 1 →
        (∀ k, 1 ≤ k → k < j → ∃ e, ops k = .err e) →
        ops j = .ok a →
        executeWithRetry n ops = ⟨.ok a, j⟩) := by
  constructor
  · intro errs hops
    have := executeWithRetryGo_allFail n ops errs n 1 (by omega) le_rfl
      (fun k hk1 hk2 => hops k hk1 hk2)
    simpa [executeWithRetry] using this
  · intro j a hj1 hj2 hprev hja
    have := executeWithRetryGo_firstSuccess n ops j a hj2 hja (j - 1) 1 (by omega) le_rfl
      (fun k hk1 hk2 => hprev k hk1 hk2)
    have hrw : j - 1 + 1 = j := by omega
    rw [hrw] at this
    simpa [executeWithRetry] using this

/-- Witness for `executeWithRetry_retry_contract` at `n = 2`: a permanently failing
operation runs 3 times and surfaces the 3rd error; an operation succeeding on its
2nd invocation returns after exactly 2 invocations. -/
theorem executeWithRetry_retry_contract_witness :
    executeWithRetry 2 (fun k => OpResult.err (α := Nat) (toString k)) = ⟨.err "3", 3⟩ ∧
    executeWithRetry 2 (fun k => if k = 2 then OpResult.ok 42 else OpResult.err "boom") =
      ⟨.ok 42, 2⟩ := by
  constructor
  · exact (executeWithRetry_retry_contract 2 (fun k => OpResult.err (toString k))).1
      (fun k => toString k) (fun k _ _ => rfl)
  · exact (executeWithRetry_retry_contract 2
        (fun k => if k = 2 then OpResult.ok 42 else OpResult.err "boom")).2
      2 42 (by omega) (by omega)
      (fun k hk1 hk2 => ⟨"boom", by interval_cases k; rfl⟩)
      (by rfl)

/-! Helper lemmas about the circuit breaker state machine. -/

theorem applyFailures_open (cfg : CircuitBreakerConfig) :
    ∀ (fs : List (Int × String)) (cb : CircuitBreaker), cb.state = .OPEN →
      (applyFailures cfg cb fs).state = .OPEN := by
  intro fs
  induction fs with
  | nil => intro cb h; simpa [applyFailures] using h
  | cons p rest ih =>
      intro cb h
      obtain ⟨t, e⟩ := p
      rw [applyFailures]
      apply ih
      by_cases hr : CircuitBreaker.shouldAttemptReset cfg cb t
      · simp [CircuitBreaker.execute, h, hr, CircuitBreaker.onFailure]
      · simp [CircuitBreaker.execute, h, hr]

theorem applyFailures_closed (cfg : CircuitBreakerConfig) :
    ∀ (fs : List (Int × String)) (cb : CircuitBreaker),
      cb.state = .CLOSED → cb.failureCount < cfg.failureThreshold →
      cfg.failureThreshold ≤ cb.failureCount + fs.length →
      (applyFailures cfg cb fs).state = .OPEN := by
  intro fs
  induction fs with
  | nil =>
      intro cb h hlt hle
      simp only [List.length_nil, Nat.add_zero] at hle
      omega
  | cons p rest ih =>
      intro cb h hlt hle
      obtain ⟨t, e⟩ := p
      rw [applyFailures]
      have hnotopen : ¬ cb.state = .OPEN := by rw [h]; intro hc; cases hc
      have hstep : (CircuitBreaker.execute cfg cb t (OpResult.err (α := Unit) e)).breaker =
          CircuitBreaker.onFailure cfg cb t := by
        simp [CircuitBreaker.execute, hnotopen]
      rw [hstep]
      by_cases hth : cb.failureCount + 1 ≥ cfg.failureThreshold
      · apply applyFailures_open
        simp [CircuitBreaker.onFailure, h, hth]
      · apply ih
        · simp [CircuitBreaker.onFailure, h, hth]
        · simp only [CircuitBreaker.onFailure, h]
          simp [hth]
          omega
        · simp only [CircuitBreaker.onFailure, h]
          simp [hth]
          simp only [List.length_cons] at hle
          omega

/-- C2: a breaker starting CLOSED with a clean failure counter is OPEN after any
sequence of at least `failureThreshold` consecutive failing `execute` calls, and an
`execute` call on it before the reset timeout has elapsed since the last failure
throws the `BreakerOpen` error without invoking the wrapped operation and without
changing the breaker. -/
theorem circuitBreaker_opens_and_rejects {α : Type} (cfg : CircuitBreakerConfig)
    (cb0 : CircuitBreaker) (fs : List (Int × String))
    (hstate : cb0.state = .CLOSED) (hcount : cb0.failureCount = 0)
    (hth : 1 ≤ cfg.failureThreshold) (hlen : cfg.failureThreshold ≤ fs.length) :
    (applyFailures cfg cb0 fs).state = .OPEN ∧
    ∀ (now : Int) (op : OpResult α),
      now - (applyFailures cfg cb0 fs).lastFailureTime < cfg.resetTimeoutMs →
      CircuitBreaker.execute cfg (applyFailures cfg cb0 fs) now op =
        ⟨.err CircuitBreaker.breakerOpenMsg, applyFailures cfg cb0 fs, false⟩ := by
  have hopen := applyFailures_closed cfg fs cb0 hstate (by omega) (by omega)
  refine ⟨hopen, ?_⟩
  intro now op hlt
  have hnr : CircuitBreaker.shouldAttemptReset cfg (applyFailures cfg cb0 fs) now = false := by
    simp only [CircuitBreaker.shouldAttemptReset, decide_eq_false_iff_not]
    omega
  simp [CircuitBreaker.execute, hopen, hnr]

/-- Witness for `circuitBreaker_opens_and_rejects`: threshold 3, three failures, then
a call 470 ms after the last failure with a 1000 ms reset timeout is rejected. -/
theorem circuitBreaker_opens_and_rejects_witness :
    (applyFailures ⟨3, 1000⟩ {} [(10, "a"), (20, "b"), (30, "c")]).state = .OPEN ∧
    CircuitBreaker.execute ⟨3, 1000⟩ (applyFailures ⟨3, 1000⟩ {} [(10, "a"), (20, "b"), (30, "c")])
        500 (OpResult.ok (7 : Nat)) =
      ⟨.err CircuitBreaker.breakerOpenMsg,
        applyFailures ⟨3, 1000⟩ {} [(10, "a"), (20, "b"), (30, "c")], false⟩ := by
  have h := circuitBreaker_opens_and_rejects (α := Nat) ⟨3, 1000⟩ {}
    [(10, "a"), (20, "b"), (30, "c")] rfl rfl (by decide) (by decide)
  exact ⟨h.1, h.2 500 (.ok 7) (by decide)⟩

theorem applySuccesses_closed (cfg : CircuitBreakerConfig) (now : Int) :
    ∀ (k : Nat) (cb : CircuitBreaker), cb.state = .CLOSED →
      (applySuccesses cfg cb now k).state = .CLOSED := by
  intro k
  induction k with
  | zero => intro cb h; simpa [applySuccesses] using h
  | succ k ih =>
      intro cb h
      rw [applySuccesses]
      apply ih
      have hnotopen : ¬ cb.state = .OPEN := by rw [h]; intro hc; cases hc
      have hnothalf : ¬ cb.state = .HALF_OPEN := by rw [h]; intro hc; cases hc
      have hstep : (CircuitBreaker.execute cfg cb now (OpResult.ok ())).breaker =
          { cb with failureCount := 0 } := by
        simp [CircuitBreaker.execute, hnotopen, CircuitBreaker.onSuccess, hnothalf]
      rw [hstep]
      simpa using h

theorem applySuccesses_halfOpen (cfg : CircuitBreakerConfig) (now : Int) :
    ∀ (k : Nat) (cb : CircuitBreaker), cb.state = .HALF_OPEN →
      cb.successCount + k < 3 →
      (applySuccesses cfg cb now k).state = .HALF_OPEN ∧
      (applySuccesses cfg cb now k).successCount = cb.successCount + k := by
  intro k
  induction k with
  | zero =>
      intro cb h hk
      refine ⟨?_, ?_⟩
      · simpa [applySuccesses] using h
      · simp [applySuccesses]
  | succ k ih =>
      intro cb h hk
      rw [applySuccesses]
      have hnotopen : ¬ cb.state = .OPEN := by rw [h]; intro hc; cases hc
      have hnotfull : ¬ cb.successCount + 1 ≥ 3 := by omega
      have hstep : (CircuitBreaker.execute cfg cb now (OpResult.ok ())).breaker =
          { cb with failureCount := 0, successCount := cb.successCount + 1 } := by
        simp [CircuitBreaker.execute, hnotopen, CircuitBreaker.onSuccess, h, hnotfull]
      rw [hstep]
      have := ih { cb with failureCount := 0, successCount := cb.successCount + 1 }
        (by simpa using h) (by simpa using (by omega : cb.successCount + 1 + k < 3))
      simpa using ⟨this.1, by rw [this.2]; simp; omega⟩

theorem applySuccesses_toClosed (cfg : CircuitBreakerConfig) (now : Int) :
    ∀ (k : Nat) (cb : CircuitBreaker), cb.state = .HALF_OPEN →
      cb.successCount < 3 → 3 ≤ cb.successCount + k →
      (applySuccesses cfg cb now k).state = .CLOSED := by
  intro k
  induction k with
  | zero => intro cb h hlt hge; omega
  | succ k ih =>
      intro cb h hlt hge
      rw [applySuccesses]
      have hnotopen : ¬ cb.state = .OPEN := by rw [h]; intro hc; cases hc
      by_cases hfull : cb.successCount + 1 ≥ 3
      · apply applySuccesses_closed
        simp [CircuitBreaker.execute, hnotopen, CircuitBreaker.onSuccess, h, hfull]
      · have hstep : (CircuitBreaker.execute cfg cb now (OpResult.ok ())).breaker =
            { cb with failureCount := 0, successCount := cb.successCount + 1 } := by
          simp [CircuitBreaker.execute, hnotopen, CircuitBreaker.onSuccess, h, hfull]
        rw [hstep]
        apply ih
        · simpa using h
        · simp; omega
        · simp; omega

/-- C3: a HALF_OPEN breaker reopens on a single failing `execute` call, with the
half-open success count reset to zero; and starting from HALF_OPEN with a zero
success count, fewer than 3 consecutive successful calls leave it HALF_OPEN with
exactly that many counted successes, while 3 or more close it. -/
theorem circuitBreaker_halfOpen_contract (cfg : CircuitBreakerConfig) :
    (∀ (cb : CircuitBreaker) (now : Int) (e : String), cb.state = .HALF_OPEN →
        (CircuitBreaker.execute cfg cb now (OpResult.err (α := Unit) e)).breaker.state = .OPEN ∧
        (CircuitBreaker.execute cfg cb now (OpResult.err (α := Unit) e)).breaker.successCount = 0) ∧
    (∀ (cb : CircuitBreaker) (now : Int) (k : Nat), cb.state = .HALF_OPEN →
        cb.successCount = 0 →
        (k < 3 → (applySuccesses cfg cb now k).state = .HALF_OPEN ∧
            (applySuccesses cfg cb now k).successCount = k) ∧
        (3 ≤ k → (applySuccesses cfg cb now k).state = .CLOSED)) := by
  constructor
  · intro cb now e h
    have hnotopen : ¬ cb.state = .OPEN := by rw [h]; intro hc; cases hc
    constructor
    · simp [CircuitBreaker.execute, hnotopen, CircuitBreaker.onFailure, h]
    · simp [CircuitBreaker.execute, hnotopen, CircuitBreaker.onFailure, h]
  · intro cb now k h hzero
    constructor
    · intro hk
      have := applySuccesses_halfOpen cfg now k cb h (by omega)
      rw [hzero] at this
      simpa using this
    · intro hk
      exact applySuccesses_toClosed cfg now k cb h (by omega) (by omega)

/-- Witness for `circuitBreaker_halfOpen_contract`: a breaker in HALF_OPEN reopens
after one failure with its success count zeroed; two successes leave it HALF_OPEN
with count 2; three successes close it. -/
theorem circuitBreaker_halfOpen_contract_witness :
    ((CircuitBreaker.execute ⟨3, 1000⟩
        { state := .HALF_OPEN, failureCount := 0, lastFailureTime := 0, successCount := 2 }
        50 (OpResult.err (α := Unit) "boom")).breaker.state = .OPEN ∧
      (CircuitBreaker.execute ⟨3, 1000⟩
        { state := .HALF_OPEN, failureCount := 0, lastFailureTime := 0, successCount := 2 }
        50 (OpResult.err (α := Unit) "boom")).breaker.successCount = 0) ∧
    ((applySuccesses ⟨3, 1000⟩
        { state := .HALF_OPEN, failureCount := 0, lastFailureTime := 0, successCount := 0 }
        50 2).state = .HALF_OPEN ∧
      (applySuccesses ⟨3, 1000⟩
        { state := .HALF_OPEN, failureCount := 0, lastFailureTime := 0, successCount := 0 }
        50 2).successCount = 2) ∧
    (applySuccesses ⟨3, 1000⟩
        { state := .HALF_OPEN, failureCount := 0, lastFailureTime := 0, successCount := 0 }
        50 3).state = .CLOSED := by
  have h := circuitBreaker_halfOpen_contract ⟨3, 1000⟩
  exact ⟨h.1 _ 50 "boom" rfl,
    ((h.2 _ 50 2 rfl rfl).1 (by decide)),
    ((h.2 _ 50 3 rfl rfl).2 (by decide))⟩

/-! Helper lemmas about the rate limiter. -/

theorem foldl_min_replicate (t : Int) : ∀ k : Nat, (List.replicate k t).foldl min t = t := by
  intro k
  induction k with
  | zero => rfl
  | succ k ih => rw [List.replicate_succ, List.foldl_cons, min_self, ih]

theorem min?_replicate (t : Int) : ∀ m : Nat, 1 ≤ m → (List.replicate m t).min? = some t := by
  intro m
  induction m with
  | zero => omega
  | succ k ih =>
      intro _
      rw [List.replicate_succ, List.min?_cons]
      cases k with
      | zero => simp
      | succ j =>
          rw [ih (by omega)]
          simp

/-- C5: with window capacity `m ≥ 1` and window size `w > 0`, each of the first `m`
`checkRateLimit` calls issued at the same instant `t` completes immediately (its
completion time is its call time) and just records its timestamp, while the next
call, issued at any `tq` still inside the window, completes only at
`t + w = oldest + windowSize`, i.e. after waiting `(oldest + windowSize) - tq`; on
waking it re-evaluates from scratch (the whole window has expired) and records
only its own timestamp. -/
theorem rateLimiter_window_contract (m : Nat) (w : Int) (t tq : Int)
    (hm : 1 ≤ m) (ht : t ≤ tq) (htq : tq - t < w) :
    (∀ k, k < m → ∀ fuel,
        checkRateLimit ⟨m, w⟩ fuel (List.replicate k t) t =
          some (t, List.replicate (k + 1) t)) ∧
    (∀ fuel, checkRateLimit ⟨m, w⟩ (fuel + 1) (List.replicate m t) tq =
        some (t + w, [t + w])) := by
  have hfilter_all : ∀ (k : Nat) (base : Int), base - w < t →
      (List.replicate k t).filter (fun x => decide (x > base - w)) = List.replicate k t := by
    intro k base hb
    apply List.filter_eq_self.mpr
    intro x hx
    have hxt := List.eq_of_mem_replicate hx
    subst hxt
    simpa using hb
  constructor
  · intro k hk fuel
    rw [checkRateLimit]
    have hstep : checkRateLimitStep ⟨m, w⟩ (List.replicate k t) t =
        .proceed (List.replicate k t ++ [t]) := by
      rw [checkRateLimitStep]
      simp only
      rw [hfilter_all k t (by omega)]
      have hlen : ¬ (List.replicate k t).length ≥ m := by
        simp [List.length_replicate]
        omega
      rw [if_neg hlen]
    rw [hstep]
    rw [← List.replicate_succ' (k) t]  -- replicate (k+1) t = replicate k t ++ [t]
  · intro fuel
    rw [checkRateLimit]
    have hstep : checkRateLimitStep ⟨m, w⟩ (List.replicate m t) tq =
        .wait (List.replicate m t) (some (t + w - tq)) := by
      rw [checkRateLimitStep]
      simp only
      rw [hfilter_all m tq (by omega)]
      have hlen : (List.replicate m t).length ≥ m := by
        simp [List.length_replicate]
      rw [if_pos hlen, min?_replicate t m hm]
      simp only
      rw [if_pos (by omega : t + w - tq > 0)]
    rw [hstep]
    simp only
    have htime : tq + (t + w - tq) = t + w := by omega
    rw [htime]
    rw [checkRateLimit]
    have hstep2 : checkRateLimitStep ⟨m, w⟩ (List.replicate m t) (t + w) =
        .proceed ([] ++ [t + w]) := by
      rw [checkRateLimitStep]
      simp only
      have hfilter_none : (List.replicate m t).filter (fun x => decide (x > t + w - w)) = [] := by
        apply List.filter_eq_nil_iff.mpr
        intro x hx
        have hxt := List.eq_of_mem_replicate hx
        subst hxt
        simp
      rw [hfilter_none]
      have hlen : ¬ ([] : List Int).length ≥ m := by simp; omega
      rw [if_neg hlen]
    rw [hstep2]
    rfl

/-- Witness for `rateLimiter_window_contract`: capacity 2, window 1000 ms, both
immediate calls at t = 100 complete at once; the third call at t = 150 completes
at 1100 with exactly the window's remainder waited. -/
theorem rateLimiter_window_contract_witness :
    checkRateLimit ⟨2, 1000⟩ 3 [] 100 = some (100, [100]) ∧
    checkRateLimit ⟨2, 1000⟩ 3 [100] 100 = some (100, [100, 100]) ∧
    checkRateLimit ⟨2, 1000⟩ 3 [100, 100] 150 = some (1100, [1100]) := by
  have h := rateLimiter_window_contract 2 1000 100 150 (by decide) (by decide) (by decide)
  refine ⟨?_, ?_, ?_⟩
  · simpa using h.1 0 (by decide) 3
  · simpa using h.1 1 (by decide) 3
  · simpa using h.2 2

/-! Helper lemmas about the work queue. -/

namespace EmailQueue

theorem enqueue_eq_insert (email : EmailMessage) (priority : Int) :
    ∀ q : List QueueItem, enqueue q email priority =
      insertByPriority (mkPendingItem email priority) q := by
  intro q
  induction q with
  | nil => rfl
  | cons a q ih =>
      rw [enqueue, insertByPriority]
      have hp : (mkPendingItem email priority).priority = priority := rfl
      rw [hp]
      simp only [List.findIdx?_cons, List.findIdx?_succ]
      by_cases ha : a.priority < priority
      · rw [if_pos (show decide (a.priority < priority) = true by simpa using ha), if_pos ha]
        rfl
      · rw [if_neg (show ¬ decide (a.priority < priority) = true by simpa using ha), if_neg ha]
        rw [enqueue] at ih
        rcases hfind : List.findIdx? (fun qi => decide (qi.priority < priority)) q with _ | i
        · rw [hfind] at ih
          have ih' : q ++ [mkPendingItem email priority] =
              insertByPriority (mkPendingItem email priority) q := ih
          simp only [hfind, Option.map_none']
          rw [List.cons_append, ih']
        · rw [hfind] at ih
          have ih' : List.take i q ++ mkPendingItem email priority :: List.drop i q =
              insertByPriority (mkPendingItem email priority) q := ih
          simp only [hfind, Option.map_some']
          rw [List.take_succ_cons, List.drop_succ_cons, List.cons_append, ih']

theorem mem_insertByPriority (x y : QueueItem) :
    ∀ l : List QueueItem, y ∈ insertByPriority x l → y = x ∨ y ∈ l := by
  intro l
  induction l with
  | nil =>
      intro h
      rw [insertByPriority] at h
      simpa using h
  | cons a l ih =>
      intro h
      rw [insertByPriority] at h
      by_cases ha : a.priority < x.priority
      · rw [if_pos ha] at h
        rcases List.mem_cons.mp h with h | h
        · exact Or.inl h
        · exact Or.inr h
      · rw [if_neg ha] at h
        rcases List.mem_cons.mp h with h | h
        · exact Or.inr (by simp [h])
        · rcases ih h with h' | h'
          · exact Or.inl h'
          · exact Or.inr (List.mem_cons_of_mem a h')

theorem insertByPriority_pairwise (x : QueueItem) :
    ∀ l : List QueueItem, l.Pairwise qge → (insertByPriority x l).Pairwise qge := by
  intro l
  induction l with
  | nil => intro _; simp [insertByPriority, qge]
  | cons a l ih =>
      intro hl
      rw [List.pairwise_cons] at hl
      rw [insertByPriority]
      by_cases ha : a.priority < x.priority
      · rw [if_pos ha]
        refine List.Pairwise.cons ?_ (List.Pairwise.cons hl.1 hl.2)
        intro y hy
        rcases List.mem_cons.mp hy with h | h
        · rw [h]; exact le_of_lt ha
        · exact le_trans (hl.1 y h) (le_of_lt ha)
      · rw [if_neg ha]
        refine List.Pairwise.cons ?_ (ih hl.2)
        intro y hy
        rcases mem_insertByPriority x y l hy with h | h
        · rw [h]; exact le_of_not_lt ha
        · exact hl.1 y h

theorem insertByPriority_filter (x : QueueItem) (p : Int) :
    ∀ l : List QueueItem, l.Pairwise qge →
      (insertByPriority x l).filter (fun i => i.priority = p) =
        (if x.priority = p then
          l.filter (fun i => i.priority = p) ++ [x]
        else
          l.filter (fun i => i.priority = p)) := by
  intro l
  induction l with
  | nil =>
      intro _
      rw [insertByPriority]
      by_cases hx : x.priority = p
      · simp [hx]
      · simp [hx]
  | cons a l ih =>
      intro hl
      rw [List.pairwise_cons] at hl
      rw [insertByPriority]
      by_cases ha : a.priority < x.priority
      · rw [if_pos ha]
        by_cases hx : x.priority = p
        · have hnone : (a :: l).filter (fun i => decide (i.priority = p)) = [] := by
            refine List.filter_eq_nil_iff.mpr ?_
            intro y hy
            have hya : y.priority ≤ a.priority := by
              rcases List.mem_cons.mp hy with h | h
              · rw [h]
              · exact hl.1 y h
            simp only [decide_eq_true_eq]
            omega
          simp [List.filter_cons, hx, hnone]
        · simp [List.filter_cons, hx]
      · rw [if_neg ha]
        rw [List.filter_cons, ih hl.2]
        by_cases hap : a.priority = p
        · by_cases hx : x.priority = p
          · simp [List.filter_cons, hap, hx]
          · simp [List.filter_cons, hap, hx]
        · by_cases hx : x.priority = p
          · simp [List.filter_cons, hap, hx]
          · simp [List.filter_cons, hap, hx]

theorem enqueueAll_pairwise :
    ∀ (entries : List (EmailMessage × Int)) (q : List QueueItem), q.Pairwise qge →
      (enqueueAll q entries).Pairwise qge := by
  intro entries
  induction entries with
  | nil => intro q hq; simpa [enqueueAll] using hq
  | cons e rest ih =>
      intro q hq
      obtain ⟨m, pr⟩ := e
      rw [enqueueAll]
      apply ih
      rw [enqueue_eq_insert]
      exact insertByPriority_pairwise _ q hq

theorem enqueueAll_filter (p : Int) :
    ∀ (entries : List (EmailMessage × Int)) (q : List QueueItem), q.Pairwise qge →
      (enqueueAll q entries).filter (fun i => i.priority = p) =
        q.filter (fun i => i.priority = p) ++
          (entries.filter (fun e => e.2 = p)).map (fun e => mkPendingItem e.1 e.2) := by
  intro entries
  induction entries with
  | nil => intro q hq; simp [enqueueAll]
  | cons e rest ih =>
      intro q hq
      obtain ⟨m, pr⟩ := e
      rw [enqueueAll]
      rw [ih _ (by rw [enqueue_eq_insert]; exact insertByPriority_pairwise _ q hq)]
      rw [enqueue_eq_insert]
      rw [insertByPriority_filter _ p q hq]
      rw [List.filter_cons]
      by_cases hpr : pr = p
      · have hx : (mkPendingItem m pr).priority = p := hpr
        rw [if_pos hx, if_pos (by simpa using hpr)]
        simp
      · have hx : ¬ (mkPendingItem m pr).priority = p := hpr
        rw [if_neg hx, if_neg (by simpa using hpr)]

theorem removeItem_cons_self (item : QueueItem) (q : List QueueItem) :
    removeItem (item :: q) item.email.id = q := by
  rw [removeItem, List.findIdx?_cons]
  simp

theorem processLoop_allPending :
    ∀ (q : List QueueItem) (now : Int), (∀ i ∈ q, i.status = .PENDING) →
      processLoop (fun _ => OpResult.ok ()) (q.length + 1) now q =
        some (q.map (fun i => i.email), []) := by
  intro q
  induction q with
  | nil => intro now _; rw [processLoop]; rfl
  | cons a q ih =>
      intro now hpend
      rw [List.length_cons, processLoop]
      have hne : ¬ (a :: q).isEmpty = true := by simp
      rw [if_neg hne]
      have hel : eligible now a = true := by
        simp [eligible, hpend a (List.mem_cons_self a q)]
      rw [splitAtEligible, if_pos hel]
      simp only [List.nil_append]
      rw [removeItem_cons_self]
      rw [ih (now + 100) (fun i hi => hpend i (List.mem_cons_of_mem a hi))]
      rfl

/-- First-eligible selection: when every queued item is PENDING, `getNextItem`
returns the queue's head. -/
theorem getNextItem_allPending (q : List QueueItem) (now : Int)
    (hq : ∀ i ∈ q, i.status = .PENDING) (hne : q ≠ []) :
    getNextItem now q = q.head? := by
  cases q with
  | nil => simp at hne
  | cons a q =>
      rw [getNextItem, List.find?_cons]
      have hel : eligible now a = true := by
        simp [eligible, hq a (List.mem_cons_self a q)]
      rw [hel]
      rfl

end EmailQueue

/-- C8: the queue dequeues by priority then submission order. After any sequence of
submissions (from an empty queue), the stored queue is ordered by non-increasing
priority, and within each priority level the items appear exactly in submission
order; when every item is immediately eligible the processing loop consumes the
queue front-to-back (so highest priority first, ties in submission order); in
particular three messages submitted with priorities 0, 5, 1 are processed in
priority order 5, 1, 0. -/
theorem emailQueue_dequeue_order :
    (∀ entries : List (EmailMessage × Int),
        (EmailQueue.enqueueAll [] entries).Pairwise EmailQueue.qge) ∧
    (∀ (entries : List (EmailMessage × Int)) (p : Int),
        (EmailQueue.enqueueAll [] entries).filter (fun i => i.priority = p) =
          (entries.filter (fun e => e.2 = p)).map (fun e => EmailQueue.mkPendingItem e.1 e.2)) ∧
    (∀ (q : List QueueItem) (now : Int), (∀ i ∈ q, i.status = .PENDING) →
        EmailQueue.processLoop (fun _ => OpResult.ok ()) (q.length + 1) now q =
          some (q.map (fun i => i.email), [])) ∧
    ((EmailQueue.processLoop (fun _ => OpResult.ok ()) 4 0
        (EmailQueue.enqueueAll []
          [(⟨"a", "", "", "", ""⟩, 0), (⟨"b", "", "", "", ""⟩, 5), (⟨"c", "", "", "", ""⟩, 1)])).map
        (fun r => r.1.map (fun msg => msg.id)) = some ["b", "c", "a"]) := by
  refine ⟨?_, ?_, ?_, ?_⟩
  · intro entries
    exact EmailQueue.enqueueAll_pairwise entries [] (by simp)
  · intro entries p
    have := EmailQueue.enqueueAll_filter p entries [] (by simp)
    simpa using this
  · exact EmailQueue.processLoop_allPending
  · decide

/-- Witness for `emailQueue_dequeue_order`: the order clauses instantiated on the
priorities-[0,5,1] queue. -/
theorem emailQueue_dequeue_order_witness :
    ((EmailQueue.enqueueAll []
        [(⟨"a", "", "", "", ""⟩, (0 : Int)), (⟨"b", "", "", "", ""⟩, 5), (⟨"c", "", "", "", ""⟩, 1)]).map
      (fun i => i.priority) = [5, 1, 0]) ∧
    (EmailQueue.processLoop (fun _ => OpResult.ok ()) 4 17
        (EmailQueue.enqueueAll []
          [(⟨"a", "", "", "", ""⟩, 0), (⟨"b", "", "", "", ""⟩, 5), (⟨"c", "", "", "", ""⟩, 1)]) =
      some ([⟨"b", "", "", "", ""⟩, ⟨"c", "", "", "", ""⟩, ⟨"a", "", "", "", ""⟩], [])) := by
  constructor
  · decide
  · have h := emailQueue_dequeue_order.2.2.1
      (EmailQueue.enqueueAll []
        [(⟨"a", "", "", "", ""⟩, 0), (⟨"b", "", "", "", ""⟩, 5), (⟨"c", "", "", "", ""⟩, 1)])
      17 (by decide)
    simpa using h

/-! Step lemmas for the queue processing loop. -/

namespace EmailQueue

theorem splitAtEligible_cons_eligible (now : Int) (x : QueueItem) (rest : List QueueItem)
    (h : eligible now x = true) : splitAtEligible now (x :: rest) = some ([], x, rest) := by
  rw [splitAtEligible, if_pos h]

theorem splitAtEligible_singleton_none (now : Int) (x : QueueItem)
    (h : eligible now x = false) : splitAtEligible now [x] = none := by
  rw [splitAtEligible, if_neg (by simp [h])]
  rfl

theorem processLoop_idle (proc : EmailMessage → OpResult Unit) (fuel : Nat) (now : Int)
    (q : List QueueItem) (hne : q.isEmpty = false) (hsplit : splitAtEligible now q = none) :
    processLoop proc (fuel + 1) now q = processLoop proc fuel (now + 1000) q := by
  rw [processLoop, if_neg (by simp [hne]), hsplit]

theorem processLoop_fail_retry (proc : EmailMessage → OpResult Unit) (item : QueueItem)
    (now : Int) (fuel : Nat) (e : String)
    (hel : eligible now item = true) (hproc : proc item.email = .err e)
    (hatt : item.attempts + 1 < 3) :
    processLoop proc (fuel + 1) now [item] =
      (processLoop proc fuel (now + 100) [retriedItem item now]).map
        (fun r => (item.email :: r.1, r.2)) := by
  rw [processLoop, if_neg (by simp), splitAtEligible_cons_eligible now item [] hel]
  simp only [hproc, List.nil_append]
  rw [if_neg (by omega : ¬ item.attempts + 1 ≥ 3)]
  have hgoal : ∀ o : Option (List EmailMessage × List QueueItem),
      (match o with
        | none => none
        | some (ord, qf) => some (item.email :: ord, qf)) =
        Option.map (fun r => (item.email :: r.1, r.2)) o := by
    intro o
    rcases o with _ | ⟨ord, qf⟩
    · rfl
    · rfl
  exact hgoal _

theorem processLoop_fail_drop (proc : EmailMessage → OpResult Unit) (item : QueueItem)
    (now : Int) (fuel : Nat) (e : String)
    (hel : eligible now item = true) (hproc : proc item.email = .err e)
    (hatt : item.attempts + 1 ≥ 3) :
    processLoop proc (fuel + 2) now [item] = some ([item.email], []) := by
  rw [processLoop, if_neg (by simp), splitAtEligible_cons_eligible now item [] hel]
  simp only [hproc]
  rw [if_pos (by omega : item.attempts + 1 ≥ 3)]
  have hempty : processLoop proc (fuel + 1) (now + 100) [] = some ([], []) := by
    rw [processLoop]
    rfl
  simp [removeItem, List.findIdx?_cons, hempty]

end EmailQueue

/-- C9: the processing loop's retry cap. A queued item whose processor invocation
fails with fewer than 3 accumulated attempts is re-queued marked RETRYING and
eligible again exactly at `now + 2^attemptCount * 1000` (attemptCount counting the
failure just made); an item failing on its 3rd attempt is removed outright. A
message whose processor always fails is therefore invoked exactly 3 times — never
a 4th — and afterwards the queue is empty: its stats count nothing and its size
is 0. -/
theorem emailQueue_three_strikes (proc : EmailMessage → OpResult Unit) (m : EmailMessage)
    (p : Int) (t0 : Int) (e : String) (hproc : proc m = OpResult.err e) :
    (∀ (proc' : EmailMessage → OpResult Unit) (item : QueueItem) (now : Int) (fuel : Nat)
        (e' : String), EmailQueue.eligible now item = true → proc' item.email = .err e' →
        item.attempts + 1 < 3 →
        EmailQueue.processLoop proc' (fuel + 1) now [item] =
          (EmailQueue.processLoop proc' fuel (now + 100) [EmailQueue.retriedItem item now]).map
            (fun r => (item.email :: r.1, r.2))) ∧
    (∀ (proc' : EmailMessage → OpResult Unit) (item : QueueItem) (now : Int) (fuel : Nat)
        (e' : String), EmailQueue.eligible now item = true → proc' item.email = .err e' →
        item.attempts + 1 ≥ 3 →
        EmailQueue.processLoop proc' (fuel + 2) now [item] = some ([item.email], [])) ∧
    EmailQueue.processLoop proc 12 t0 [EmailQueue.mkPendingItem m p] = some ([m, m, m], []) ∧
    (EmailQueue.processLoop proc 12 t0 [EmailQueue.mkPendingItem m p]).map
        (fun r => (EmailQueue.getStats r.2, EmailQueue.size r.2)) =
      some (⟨0, 0, 0, 0, 0⟩, 0) := by
  have hrun : EmailQueue.processLoop proc 12 t0 [EmailQueue.mkPendingItem m p] =
      some ([m, m, m], []) := by
    have hel0 : EmailQueue.eligible t0 (EmailQueue.mkPendingItem m p) = true := by
      simp [EmailQueue.eligible, EmailQueue.mkPendingItem]
    have hr1ineligible : ∀ τ : Int, τ - t0 < 2000 →
        EmailQueue.eligible τ (EmailQueue.retriedItem (EmailQueue.mkPendingItem m p) t0) =
          false := by
      intro τ hτ
      simp [EmailQueue.eligible, EmailQueue.retriedItem, EmailQueue.mkPendingItem]
      omega
    have hr1eligible : ∀ τ : Int, t0 + 2000 ≤ τ →
        EmailQueue.eligible τ (EmailQueue.retriedItem (EmailQueue.mkPendingItem m p) t0) =
          true := by
      intro τ hτ
      simp [EmailQueue.eligible, EmailQueue.retriedItem, EmailQueue.mkPendingItem]
      omega
    have hr2ineligible : ∀ τ : Int, τ - t0 < 6100 →
        EmailQueue.eligible τ (EmailQueue.retriedItem
          (EmailQueue.retriedItem (EmailQueue.mkPendingItem m p) t0) (t0 + 2100)) = false := by
      intro τ hτ
      simp [EmailQueue.eligible, EmailQueue.retriedItem, EmailQueue.mkPendingItem]
      omega
    have hr2eligible : ∀ τ : Int, t0 + 6100 ≤ τ →
        EmailQueue.eligible τ (EmailQueue.retriedItem
          (EmailQueue.retriedItem (EmailQueue.mkPendingItem m p) t0) (t0 + 2100)) = true := by
      intro τ hτ
      simp [EmailQueue.eligible, EmailQueue.retriedItem, EmailQueue.mkPendingItem]
      omega
    have e1 : EmailQueue.processLoop proc 12 t0 [EmailQueue.mkPendingItem m p] =
        (EmailQueue.processLoop proc 11 (t0 + 100)
            [EmailQueue.retriedItem (EmailQueue.mkPendingItem m p) t0]).map
          (fun r => (m :: r.1, r.2)) := by
      rw [show (12 : Nat) = 11 + 1 from rfl]
      exact EmailQueue.processLoop_fail_retry proc _ t0 11 e hel0 hproc
        (by simp [EmailQueue.mkPendingItem])
    have e2 : EmailQueue.processLoop proc 11 (t0 + 100)
        [EmailQueue.retriedItem (EmailQueue.mkPendingItem m p) t0] =
        EmailQueue.processLoop proc 10 (t0 + 1100)
          [EmailQueue.retriedItem (EmailQueue.mkPendingItem m p) t0] := by
      rw [show (11 : Nat) = 10 + 1 from rfl]
      rw [EmailQueue.processLoop_idle proc 10 (t0 + 100) _ (by simp)
        (EmailQueue.splitAtEligible_singleton_none _ _ (hr1ineligible _ (by omega)))]
      rw [show t0 + 100 + 1000 = t0 + 1100 by omega]
    have e3 : EmailQueue.processLoop proc 10 (t0 + 1100)
        [EmailQueue.retriedItem (EmailQueue.mkPendingItem m p) t0] =
        EmailQueue.processLoop proc 9 (t0 + 2100)
          [EmailQueue.retriedItem (EmailQueue.mkPendingItem m p) t0] := by
      rw [show (10 : Nat) = 9 + 1 from rfl]
      rw [EmailQueue.processLoop_idle proc 9 (t0 + 1100) _ (by simp)
        (EmailQueue.splitAtEligible_singleton_none _ _ (hr1ineligible _ (by omega)))]
      rw [show t0 + 1100 + 1000 = t0 + 2100 by omega]
    have e4 : EmailQueue.processLoop proc 9 (t0 + 2100)
        [EmailQueue.retriedItem (EmailQueue.mkPendingItem m p) t0] =
        (EmailQueue.processLoop proc 8 (t0 + 2100 + 100)
            [EmailQueue.retriedItem
              (EmailQueue.retriedItem (EmailQueue.mkPendingItem m p) t0) (t0 + 2100)]).map
          (fun r => (m :: r.1, r.2)) := by
      rw [show (9 : Nat) = 8 + 1 from rfl]
      exact EmailQueue.processLoop_fail_retry proc _ (t0 + 2100) 8 e
        (hr1eligible _ (by omega)) hproc (by simp [EmailQueue.retriedItem, EmailQueue.mkPendingItem])
    have idle : ∀ (fuel : Nat) (τ : Int), τ - t0 < 6100 →
        EmailQueue.processLoop proc (fuel + 1) τ
          [EmailQueue.retriedItem
            (EmailQueue.retriedItem (EmailQueue.mkPendingItem m p) t0) (t0 + 2100)] =
        EmailQueue.processLoop proc fuel (τ + 1000)
          [EmailQueue.retriedItem
            (EmailQueue.retriedItem (EmailQueue.mkPendingItem m p) t0) (t0 + 2100)] := by
      intro fuel τ hτ
      exact EmailQueue.processLoop_idle proc fuel τ _ (by simp)
        (EmailQueue.splitAtEligible_singleton_none _ _ (hr2ineligible _ hτ))
    have e5 : EmailQueue.processLoop proc 8 (t0 + 2100 + 100)
        [EmailQueue.retriedItem
          (EmailQueue.retriedItem (EmailQueue.mkPendingItem m p) t0) (t0 + 2100)] =
        some ([m], []) := by
      rw [show (8 : Nat) = 7 + 1 from rfl, idle 7 _ (by omega)]
      rw [show (7 : Nat) = 6 + 1 from rfl, idle 6 _ (by omega)]
      rw [show (6 : Nat) = 5 + 1 from rfl, idle 5 _ (by omega)]
      rw [show (5 : Nat) = 4 + 1 from rfl, idle 4 _ (by omega)]
      rw [show (4 : Nat) = 2 + 2 from rfl]
      rw [show t0 + 2100 + 100 + 1000 + 1000 + 1000 + 1000 = t0 + 6200 by omega]
      exact EmailQueue.processLoop_fail_drop proc _ (t0 + 6200) 2 e
        (hr2eligible _ (by omega)) hproc
        (by simp [EmailQueue.retriedItem, EmailQueue.mkPendingItem])
    rw [e1, e2, e3, e4, e5]
    rfl
  refine ⟨?_, ?_, hrun, ?_⟩
  · intro proc' item now fuel e' hel hp hatt
    exact EmailQueue.processLoop_fail_retry proc' item now fuel e' hel hp hatt
  · intro proc' item now fuel e' hel hp hatt
    exact EmailQueue.processLoop_fail_drop proc' item now fuel e' hel hp hatt
  · rw [hrun]
    rfl

/-- Witness for `emailQueue_three_strikes`: a concrete always-failing message is
invoked exactly 3 times from enqueue at t = 0 and the queue ends empty with zeroed
stats. -/
theorem emailQueue_three_strikes_witness :
    EmailQueue.processLoop (fun _ => OpResult.err "down") 12 0
        [EmailQueue.mkPendingItem ⟨"x", "", "", "", ""⟩ 4] =
      some ([⟨"x", "", "", "", ""⟩, ⟨"x", "", "", "", ""⟩, ⟨"x", "", "", "", ""⟩], []) ∧
    (EmailQueue.processLoop (fun _ => OpResult.err "down") 12 0
        [EmailQueue.mkPendingItem ⟨"x", "", "", "", ""⟩ 4]).map
        (fun r => (EmailQueue.getStats r.2, EmailQueue.size r.2)) =
      some (⟨0, 0, 0, 0, 0⟩, 0) := by
  have h := emailQueue_three_strikes (fun _ => OpResult.err "down") ⟨"x", "", "", "", ""⟩
    4 0 "down" rfl
  exact ⟨h.2.2.1, h.2.2.2⟩

/-! Association-list lemmas for the JS `Map` model. -/

theorem lookupA_setA_self (k : String) (v : β) :
    ∀ l : List (String × β), lookupA (setA l k v) k = some v := by
  intro l
  induction l with
  | nil => simp [setA, lookupA]
  | cons p rest ih =>
      obtain ⟨k', v'⟩ := p
      rw [setA]
      by_cases h : k' = k
      · rw [if_pos h]
        simp [lookupA]
      · rw [if_neg h]
        simpa [lookupA, List.find?_cons, h] using ih

theorem lookupA_setA_other (k k' : String) (v : β) (hne : k' ≠ k) :
    ∀ l : List (String × β), lookupA (setA l k v) k' = lookupA l k' := by
  intro l
  induction l with
  | nil =>
      rw [setA]
      simp only [lookupA, List.find?_cons, List.find?_nil]
      rw [decide_eq_false (fun h : k = k' => hne h.symm)]
  | cons p rest ih =>
      obtain ⟨k0, v0⟩ := p
      rw [setA]
      by_cases h : k0 = k
      · rw [if_pos h]
        have hk0 : ¬ (k : String) = k' := fun hh => hne hh.symm
        have hk0' : ¬ (k0 : String) = k' := by rw [h]; exact hk0
        simp [lookupA, List.find?_cons, hk0, hk0']
      · rw [if_neg h]
        by_cases h0 : k0 = k'
        · simp [lookupA, List.find?_cons, h0]
        · simpa [lookupA, List.find?_cons, h0] using ih

/-! Field-preservation facts for the orchestrator's state updates. -/

theorem recordAttempt_providers (svc : EmailService) (a b : String) (now : Int) :
    (EmailService.recordAttempt svc a b now).2.providers = svc.providers := rfl

theorem recordAttempt_breakers (svc : EmailService) (a b : String) (now : Int) :
    (EmailService.recordAttempt svc a b now).2.circuitBreakers = svc.circuitBreakers := rfl

theorem recordAttempt_config (svc : EmailService) (a b : String) (now : Int) :
    (EmailService.recordAttempt svc a b now).2.config = svc.config := rfl

theorem recordAttempt_primary (svc : EmailService) (a b : String) (now : Int) :
    (EmailService.recordAttempt svc a b now).2.primaryProviderIndex =
      svc.primaryProviderIndex := rfl

theorem recordAttempt_idem (svc : EmailService) (a b : String) (now : Int) :
    (EmailService.recordAttempt svc a b now).2.idempotencyRecords =
      svc.idempotencyRecords := rfl

theorem recordAttempt_rate (svc : EmailService) (a b : String) (now : Int) :
    (EmailService.recordAttempt svc a b now).2.rateLimiterRequests =
      svc.rateLimiterRequests := rfl

theorem updateAttemptAt_providers (svc : EmailService) (a : String) (idx : Nat)
    (st : EmailStatus) (er : Option String) (du : Option Int) :
    (EmailService.updateAttemptAt svc a idx st er du).providers = svc.providers := rfl

theorem updateAttemptAt_breakers (svc : EmailService) (a : String) (idx : Nat)
    (st : EmailStatus) (er : Option String) (du : Option Int) :
    (EmailService.updateAttemptAt svc a idx st er du).circuitBreakers =
      svc.circuitBreakers := rfl

theorem updateAttemptAt_config (svc : EmailService) (a : String) (idx : Nat)
    (st : EmailStatus) (er : Option String) (du : Option Int) :
    (EmailService.updateAttemptAt svc a idx st er du).config = svc.config := rfl

theorem updateAttemptAt_primary (svc : EmailService) (a : String) (idx : Nat)
    (st : EmailStatus) (er : Option String) (du : Option Int) :
    (EmailService.updateAttemptAt svc a idx st er du).primaryProviderIndex =
      svc.primaryProviderIndex := rfl

theorem updateAttemptAt_idem (svc : EmailService) (a : String) (idx : Nat)
    (st : EmailStatus) (er : Option String) (du : Option Int) :
    (EmailService.updateAttemptAt svc a idx st er du).idempotencyRecords =
      svc.idempotencyRecords := rfl

theorem updateAttemptAt_rate (svc : EmailService) (a : String) (idx : Nat)
    (st : EmailStatus) (er : Option String) (du : Option Int) :
    (EmailService.updateAttemptAt svc a idx st er du).rateLimiterRequests =
      svc.rateLimiterRequests := rfl

theorem setBreaker_providers (svc : EmailService) (n : String) (cb : CircuitBreaker) :
    (EmailService.setBreaker svc n cb).providers = svc.providers := rfl

theorem setBreaker_breakers (svc : EmailService) (n : String) (cb : CircuitBreaker) :
    (EmailService.setBreaker svc n cb).circuitBreakers =
      setA svc.circuitBreakers n cb := rfl

theorem setBreaker_config (svc : EmailService) (n : String) (cb : CircuitBreaker) :
    (EmailService.setBreaker svc n cb).config = svc.config := rfl

theorem setBreaker_primary (svc : EmailService) (n : String) (cb : CircuitBreaker) :
    (EmailService.setBreaker svc n cb).primaryProviderIndex = svc.primaryProviderIndex := rfl

theorem setBreaker_idem (svc : EmailService) (n : String) (cb : CircuitBreaker) :
    (EmailService.setBreaker svc n cb).idempotencyRecords = svc.idempotencyRecords := rfl

theorem setBreaker_rate (svc : EmailService) (n : String) (cb : CircuitBreaker) :
    (EmailService.setBreaker svc n cb).rateLimiterRequests = svc.rateLimiterRequests := rfl

/-- `onSuccess` leaves a breaker's state where it was or closes it — it never
produces OPEN. -/
theorem onSuccess_state (cb : CircuitBreaker) :
    (CircuitBreaker.onSuccess cb).state = cb.state ∨
      (CircuitBreaker.onSuccess cb).state = .CLOSED := by
  rw [CircuitBreaker.onSuccess]
  by_cases h : cb.state = .HALF_OPEN
  · rw [if_pos (by simpa using h)]
    by_cases h3 : cb.successCount + 1 ≥ 3
    · rw [if_pos (by simpa using h3)]
      exact Or.inr rfl
    · rw [if_neg (by simpa using h3)]
      exact Or.inl rfl
  · rw [if_neg (by simpa using h)]
    exact Or.inl rfl

/-! Lemmas about the fallback loop of the orchestrator. -/

theorem sendWithFallbackGo_allOpen (msg : EmailMessage) (now : Int) :
    ∀ (remaining i invoked : Nat) (lastError : Option String) (svc : EmailService),
      remaining ≤ svc.providers.length →
      (∀ p ∈ svc.providers, (EmailService.breakerOf svc p.name).state = .OPEN) →
      EmailService.sendWithFallbackGo msg now remaining i lastError invoked svc =
        ⟨.error (lastError.getD "All providers failed"), svc, invoked⟩ := by
  intro remaining
  induction remaining with
  | zero =>
      intro i invoked lastError svc _ _
      rw [EmailService.sendWithFallbackGo]
  | succ r ih =>
      intro i invoked lastError svc hrem hopen
      rw [EmailService.sendWithFallbackGo]
      have hlen : 0 < svc.providers.length := by omega
      have hidx : (svc.primaryProviderIndex + i) % svc.providers.length <
          svc.providers.length := Nat.mod_lt _ hlen
      have hmem : svc.providers.getD
          ((svc.primaryProviderIndex + i) % svc.providers.length) dummyProvider ∈
          svc.providers := by
        rw [List.getD_eq_getElem?_getD, List.getElem?_eq_getElem hidx]
        exact List.getElem_mem hidx
      rw [if_pos (hopen _ hmem)]
      exact ih (i + 1) invoked lastError svc (by omega) hopen

/-- C1 counterexample: in `openElapsedSvc` the sole backend's breaker is OPEN and
the reset timeout has elapsed at the probe instant (`shouldAttemptReset` holds), so
per the claim the backend should be called through `breaker.execute`; the fallback
pass nevertheless skips it — zero provider invocations — and fails with the
generic all-providers error. -/
theorem fallback_skips_trial_eligible_backend :
    (EmailService.breakerOf openElapsedSvc "Primary").state = .OPEN ∧
    CircuitBreaker.shouldAttemptReset openElapsedSvc.config.circuitBreaker
      (EmailService.breakerOf openElapsedSvc "Primary") 5000 = true ∧
    (EmailService.sendWithFallback openElapsedSvc probeMsg 5000).invoked = 0 ∧
    (EmailService.sendWithFallback openElapsedSvc probeMsg 5000).result =
      .error "All providers failed" := by
  refine ⟨rfl, rfl, ?_, ?_⟩
  · rfl
  · rfl

/-- C1 amended: the fallback pass skips every backend whose breaker reads OPEN,
regardless of whether the reset timeout has elapsed — when every breaker is OPEN
no backend is ever invoked and the pass fails with the generic error, leaving the
service state untouched; the OPEN→HALF_OPEN trial transition exists only inside
`CircuitBreaker.execute` itself, which (called directly while OPEN with the
timeout elapsed) does invoke the operation through a HALF_OPEN trial. -/
theorem fallback_open_skip_amended :
    (∀ (svc : EmailService) (msg : EmailMessage) (now : Int),
        (∀ p ∈ svc.providers, (EmailService.breakerOf svc p.name).state = .OPEN) →
        EmailService.sendWithFallback svc msg now = ⟨.error "All providers failed", svc, 0⟩) ∧
    (∀ (α : Type) (cfg : CircuitBreakerConfig) (cb : CircuitBreaker) (now : Int)
        (op : OpResult α),
        cb.state = .OPEN → CircuitBreaker.shouldAttemptReset cfg cb now = true →
        CircuitBreaker.execute cfg cb now op =
          match op with
          | .ok a => ⟨.ok a, CircuitBreaker.onSuccess { cb with state := .HALF_OPEN }, true⟩
          | .err e =>
              ⟨.err e, CircuitBreaker.onFailure cfg { cb with state := .HALF_OPEN } now, true⟩) := by
  constructor
  · intro svc msg now hopen
    exact sendWithFallbackGo_allOpen msg now svc.providers.length 0 0 none svc le_rfl hopen
  · intro α cfg cb now op hst hsar
    rw [CircuitBreaker.execute, if_pos hst, if_pos hsar]

/-- Witness for `fallback_open_skip_amended` on the concrete OPEN-and-elapsed
service and its breaker. -/
theorem fallback_open_skip_amended_witness :
    EmailService.sendWithFallback openElapsedSvc probeMsg 5000 =
      ⟨.error "All providers failed", openElapsedSvc, 0⟩ ∧
    CircuitBreaker.execute openElapsedSvc.config.circuitBreaker
        (EmailService.breakerOf openElapsedSvc "Primary") 5000
        (OpResult.ok (0 : Nat)) =
      ⟨.ok 0,
        CircuitBreaker.onSuccess
          { EmailService.breakerOf openElapsedSvc "Primary" with state := .HALF_OPEN },
        true⟩ := by
  have h := fallback_open_skip_amended
  constructor
  · exact h.1 openElapsedSvc probeMsg 5000 (by decide)
  · exact h.2 Nat openElapsedSvc.config.circuitBreaker
      (EmailService.breakerOf openElapsedSvc "Primary") 5000 (OpResult.ok 0) (by decide) (by decide)

theorem sendWithFallbackGo_allFalse (msg : EmailMessage) (now : Int) :
    ∀ (remaining i invoked : Nat) (lastError : Option String) (svc : EmailService),
      remaining ≤ svc.providers.length →
      (∀ p ∈ svc.providers, ∃ r, p.behavior = .ok r ∧ r.success = false) →
      (∀ p ∈ svc.providers, (EmailService.breakerOf svc p.name).state ≠ .OPEN) →
      ∃ svc' : EmailService,
        EmailService.sendWithFallbackGo msg now remaining i lastError invoked svc =
          ⟨.error (lastError.getD "All providers failed"), svc', invoked + remaining⟩ ∧
        svc'.providers = svc.providers ∧
        svc'.config = svc.config ∧
        svc'.primaryProviderIndex = svc.primaryProviderIndex ∧
        svc'.idempotencyRecords = svc.idempotencyRecords ∧
        svc'.rateLimiterRequests = svc.rateLimiterRequests := by
  intro remaining
  induction remaining with
  | zero =>
      intro i invoked lastError svc _ _ _
      exact ⟨svc, by rw [EmailService.sendWithFallbackGo]; rfl, rfl, rfl, rfl, rfl, rfl⟩
  | succ rem ih =>
      intro i invoked lastError svc hrem hb hopen
      have hlen : 0 < svc.providers.length := by omega
      have hidx : (svc.primaryProviderIndex + i) % svc.providers.length <
          svc.providers.length := Nat.mod_lt _ hlen
      have hmem : svc.providers.getD
          ((svc.primaryProviderIndex + i) % svc.providers.length) dummyProvider ∈
          svc.providers := by
        rw [List.getD_eq_getElem?_getD, List.getElem?_eq_getElem hidx]
        exact List.getElem_mem hidx
      obtain ⟨r, hbr, hrs⟩ := hb _ hmem
      have hcb := hopen _ hmem
      rw [EmailService.sendWithFallbackGo]
      rw [if_neg hcb]
      rw [hbr]
      have hexec : CircuitBreaker.execute svc.config.circuitBreaker
          (EmailService.breakerOf svc (svc.providers.getD
            ((svc.primaryProviderIndex + i) % svc.providers.length) dummyProvider).name)
          now (OpResult.ok r) =
          ⟨.ok r, CircuitBreaker.onSuccess (EmailService.breakerOf svc (svc.providers.getD
            ((svc.primaryProviderIndex + i) % svc.providers.length) dummyProvider).name),
            true⟩ := by
        rw [CircuitBreaker.execute, if_neg hcb]
      rw [hexec]
      rcases hrec : EmailService.recordAttempt svc msg.id (svc.providers.getD
          ((svc.primaryProviderIndex + i) % svc.providers.length) dummyProvider).name now
        with ⟨idx, svc1⟩
      simp only [hrs, Bool.false_eq_true, if_false, if_true]
      have hsvc1 : svc1 = (EmailService.recordAttempt svc msg.id (svc.providers.getD
          ((svc.primaryProviderIndex + i) % svc.providers.length) dummyProvider).name now).2 := by
        rw [hrec]
      set nm := (svc.providers.getD
        ((svc.primaryProviderIndex + i) % svc.providers.length) dummyProvider).name with hnm
      set svcB := EmailService.setBreaker
        (EmailService.updateAttemptAt svc1 msg.id idx .SENT none (some r.duration)) nm
        (CircuitBreaker.onSuccess (EmailService.breakerOf svc nm)) with hsvcB
      have hBprov : svcB.providers = svc.providers := by
        rw [hsvcB, setBreaker_providers, updateAttemptAt_providers, hsvc1,
          recordAttempt_providers]
      have hBconf : svcB.config = svc.config := by
        rw [hsvcB, setBreaker_config, updateAttemptAt_config, hsvc1, recordAttempt_config]
      have hBprim : svcB.primaryProviderIndex = svc.primaryProviderIndex := by
        rw [hsvcB, setBreaker_primary, updateAttemptAt_primary, hsvc1, recordAttempt_primary]
      have hBidem : svcB.idempotencyRecords = svc.idempotencyRecords := by
        rw [hsvcB, setBreaker_idem, updateAttemptAt_idem, hsvc1, recordAttempt_idem]
      have hBrate : svcB.rateLimiterRequests = svc.rateLimiterRequests := by
        rw [hsvcB, setBreaker_rate, updateAttemptAt_rate, hsvc1, recordAttempt_rate]
      have hBbreak : ∀ n : String, EmailService.breakerOf svcB n =
          (if n = nm then CircuitBreaker.onSuccess (EmailService.breakerOf svc nm)
           else EmailService.breakerOf svc n) := by
        intro n
        rw [EmailService.breakerOf, hsvcB, setBreaker_breakers, updateAttemptAt_breakers,
          hsvc1, recordAttempt_breakers]
        by_cases h : n = nm
        · rw [if_pos h, h, lookupA_setA_self]
          rfl
        · rw [if_neg h, lookupA_setA_other _ _ _ h]
          rfl
      have hBopen : ∀ p ∈ svcB.providers, (EmailService.breakerOf svcB p.name).state ≠ .OPEN := by
        intro p hp
        rw [hBprov] at hp
        rw [hBbreak p.name]
        by_cases h : p.name = nm
        · rw [if_pos h]
          rcases onSuccess_state (EmailService.breakerOf svc nm) with hs | hs
          · rw [hs]
            exact hcb
          · rw [hs]
            intro hc
            cases hc
        · rw [if_neg h]
          exact hopen p hp
      have hBb : ∀ p ∈ svcB.providers, ∃ r, p.behavior = .ok r ∧ r.success = false := by
        intro p hp
        rw [hBprov] at hp
        exact hb p hp
      obtain ⟨svc', heq, h1, h2, h3, h4, h5⟩ :=
        ih (i + 1) (invoked + 1) lastError svcB (by rw [hBprov]; omega) hBb hBopen
      refine ⟨svc', ?_, by rw [h1, hBprov], by rw [h2, hBconf], by rw [h3, hBprim],
        by rw [h4, hBidem], by rw [h5, hBrate]⟩
      rw [show invoked + (rem + 1) = invoked + 1 + rem from by omega]
      exact heq

theorem modify_append_length {α : Type} (f : α → α) :
    ∀ (l : List α) (a : α), List.modify f l.length (l ++ [a]) = l ++ [f a] := by
  intro l
  induction l with
  | nil => intro a; rfl
  | cons b l ih =>
      intro a
      rw [List.cons_append, List.length_cons]
      rw [show List.modify f (l.length + 1) (b :: (l ++ [a])) =
        b :: List.modify f l.length (l ++ [a]) from rfl]
      rw [ih a, List.cons_append]

theorem sendWithFallback_singleFalse (svc : EmailService) (msg : EmailMessage) (now : Int)
    (p : Provider) (r : EmailSendResult)
    (hprov : svc.providers = [p]) (hbr : p.behavior = .ok r) (hrs : r.success = false)
    (hcb : (EmailService.breakerOf svc p.name).state ≠ .OPEN) :
    (EmailService.sendWithFallback svc msg now).result = .error "All providers failed" ∧
    (EmailService.sendWithFallback svc msg now).invoked = 1 ∧
    EmailService.breakerOf (EmailService.sendWithFallback svc msg now).svc p.name =
      CircuitBreaker.onSuccess (EmailService.breakerOf svc p.name) ∧
    EmailService.getEmailAttempts (EmailService.sendWithFallback svc msg now).svc msg.id =
      EmailService.getEmailAttempts svc msg.id ++
        [{ id := msg.id ++ "-" ++ p.name ++ "-" ++
              toString (((EmailService.getEmailAttempts svc msg.id).filter
                (fun a => a.provider = p.name)).length + 1)
           emailId := msg.id
           provider := p.name
           status := .SENT
           attempt := ((EmailService.getEmailAttempts svc msg.id).filter
             (fun a => a.provider = p.name)).length + 1
           timestamp := now
           error := none
           duration := some r.duration }] := by
  have hgo : EmailService.sendWithFallback svc msg now =
      EmailService.sendWithFallbackGo msg now (0 + 1) 0 none 0 svc := by
    rw [EmailService.sendWithFallback, hprov]
    rfl
  have hpi : (svc.primaryProviderIndex + 0) % svc.providers.length = 0 := by
    rw [hprov]
    simp [Nat.mod_one]
  have hgetp : svc.providers.getD ((svc.primaryProviderIndex + 0) % svc.providers.length)
      dummyProvider = p := by
    rw [hpi, hprov]
    rfl
  have hexec : CircuitBreaker.execute svc.config.circuitBreaker
      (EmailService.breakerOf svc p.name) now (OpResult.ok r) =
      ⟨.ok r, CircuitBreaker.onSuccess (EmailService.breakerOf svc p.name), true⟩ := by
    rw [CircuitBreaker.execute, if_neg hcb]
  have hred : EmailService.sendWithFallbackGo msg now (0 + 1) 0 none 0 svc =
      ⟨.error "All providers failed",
        EmailService.setBreaker
          (EmailService.updateAttemptAt (EmailService.recordAttempt svc msg.id p.name now).2
            msg.id (EmailService.recordAttempt svc msg.id p.name now).1 .SENT none
            (some r.duration))
          p.name (CircuitBreaker.onSuccess (EmailService.breakerOf svc p.name)), 1⟩ := by
    rw [EmailService.sendWithFallbackGo]
    rw [hgetp, if_neg hcb, hbr, hexec]
    rcases hrec : EmailService.recordAttempt svc msg.id p.name now with ⟨idx, svc1⟩
    simp only [hrs, Bool.false_eq_true, if_false, if_true]
    rw [EmailService.sendWithFallbackGo]
    rfl
  rw [hgo, hred]
  refine ⟨rfl, rfl, ?_, ?_⟩
  · rw [EmailService.breakerOf, setBreaker_breakers, lookupA_setA_self]
    rfl
  · rw [EmailService.getEmailAttempts]
    rw [show (EmailService.setBreaker
        (EmailService.updateAttemptAt (EmailService.recordAttempt svc msg.id p.name now).2
          msg.id (EmailService.recordAttempt svc msg.id p.name now).1 .SENT none
          (some r.duration))
        p.name (CircuitBreaker.onSuccess (EmailService.breakerOf svc p.name))).attempts =
      (EmailService.updateAttemptAt (EmailService.recordAttempt svc msg.id p.name now).2
        msg.id (EmailService.recordAttempt svc msg.id p.name now).1 .SENT none
        (some r.duration)).attempts from rfl]
    rw [EmailService.updateAttemptAt, EmailService.recordAttempt]
    simp only [lookupA_setA_self, Option.getD_some]
    rw [modify_append_length]
    rfl

/-- C10: a backend whose attempt resolves with `success: false` (instead of
rejecting) is handled as a circuit-breaker success — the breaker goes through
`onSuccess` (failure counter reset; a HALF_OPEN trial counts it toward closing) —
and its attempt record is finalized as SENT; the loop then moves on without
recording this outcome as `lastError`, so when every backend resolves this way the
pass invokes them all and fails with the generic "All providers failed" error
rather than any backend-supplied description. -/
theorem fallback_soft_failure_contract :
    (∀ (svc : EmailService) (msg : EmailMessage) (now : Int),
        (∀ p ∈ svc.providers, ∃ r, p.behavior = .ok r ∧ r.success = false) →
        (∀ p ∈ svc.providers, (EmailService.breakerOf svc p.name).state ≠ .OPEN) →
        ∃ svc' : EmailService,
          EmailService.sendWithFallback svc msg now =
            ⟨.error "All providers failed", svc', svc.providers.length⟩ ∧
          svc'.primaryProviderIndex = svc.primaryProviderIndex) ∧
    (∀ (svc : EmailService) (msg : EmailMessage) (now : Int) (p : Provider)
        (r : EmailSendResult),
        svc.providers = [p] → p.behavior = .ok r → r.success = false →
        (EmailService.breakerOf svc p.name).state ≠ .OPEN →
        (EmailService.sendWithFallback svc msg now).result = .error "All providers failed" ∧
        (EmailService.sendWithFallback svc msg now).invoked = 1 ∧
        EmailService.breakerOf (EmailService.sendWithFallback svc msg now).svc p.name =
          CircuitBreaker.onSuccess (EmailService.breakerOf svc p.name) ∧
        EmailService.getEmailAttempts (EmailService.sendWithFallback svc msg now).svc msg.id =
          EmailService.getEmailAttempts svc msg.id ++
            [{ id := msg.id ++ "-" ++ p.name ++ "-" ++
                  toString (((EmailService.getEmailAttempts svc msg.id).filter
                    (fun a => a.provider = p.name)).length + 1)
               emailId := msg.id
               provider := p.name
               status := .SENT
               attempt := ((EmailService.getEmailAttempts svc msg.id).filter
                 (fun a => a.provider = p.name)).length + 1
               timestamp := now
               error := none
               duration := some r.duration }]) := by
  constructor
  · intro svc msg now hb hopen
    obtain ⟨svc', heq, _, _, hprim, _, _⟩ :=
      sendWithFallbackGo_allFalse msg now svc.providers.length 0 0 none svc le_rfl hb hopen
    simp only [Option.getD_none, Nat.zero_add] at heq
    exact ⟨svc', heq, hprim⟩
  · intro svc msg now p r hprov hbr hrs hcb
    exact sendWithFallback_singleFalse svc msg now p r hprov hbr hrs hcb

/-- Witness for `fallback_soft_failure_contract`: one backend resolving
`success: false` on a fresh service — the pass fails with the generic error, the
backend was invoked once, its breaker went through `onSuccess`, and the single
attempt record is SENT. -/
theorem fallback_soft_failure_contract_witness :
    (EmailService.sendWithFallback resolveFalseSvc probeMsg 42).result =
      .error "All providers failed" ∧
    (EmailService.sendWithFallback resolveFalseSvc probeMsg 42).invoked = 1 ∧
    EmailService.breakerOf (EmailService.sendWithFallback resolveFalseSvc probeMsg 42).svc
        "Primary" =
      CircuitBreaker.onSuccess (EmailService.breakerOf resolveFalseSvc "Primary") ∧
    EmailService.getEmailAttempts (EmailService.sendWithFallback resolveFalseSvc probeMsg 42).svc
        "m1" =
      [{ id := "m1-Primary-1"
         emailId := "m1"
         provider := "Primary"
         status := .SENT
         attempt := 1
         timestamp := 42
         error := none
         duration := some 2 }] := by
  have h := fallback_soft_failure_contract.2 resolveFalseSvc probeMsg 42
    ⟨"Primary", .ok { success := false, error := some "bounced", duration := 2 }⟩
    { success := false, error := some "bounced", duration := 2 }
    rfl rfl rfl (by decide)
  obtain ⟨h1, h2, h3, h4⟩ := h
  exact ⟨h1, h2, h3, h4⟩

/-- Fields of the service that one fallback pass never writes: the idempotency
records, the configuration, the provider list and the rate-limiter window. -/
def FallbackPreserves (a b : EmailService) : Prop :=
  a.idempotencyRecords = b.idempotencyRecords ∧
  a.config = b.config ∧
  a.providers = b.providers ∧
  a.rateLimiterRequests = b.rateLimiterRequests

theorem fallbackPreserves_refl (a : EmailService) : FallbackPreserves a a :=
  ⟨rfl, rfl, rfl, rfl⟩

theorem fallbackPreserves_trans {a b c : EmailService}
    (h1 : FallbackPreserves a b) (h2 : FallbackPreserves b c) : FallbackPreserves a c :=
  ⟨h1.1.trans h2.1, h1.2.1.trans h2.2.1, h1.2.2.1.trans h2.2.2.1, h1.2.2.2.trans h2.2.2.2⟩

theorem sendWithFallbackGo_preserves (msg : EmailMessage) (now : Int) :
    ∀ (remaining i invoked : Nat) (lastError : Option String) (svc : EmailService),
      FallbackPreserves
        (EmailService.sendWithFallbackGo msg now remaining i lastError invoked svc).svc svc := by
  intro remaining
  induction remaining with
  | zero =>
      intro i invoked lastError svc
      rw [EmailService.sendWithFallbackGo]
      exact fallbackPreserves_refl svc
  | succ rem ih =>
      intro i invoked lastError svc
      rw [EmailService.sendWithFallbackGo]
      by_cases hcb : (EmailService.breakerOf svc (svc.providers.getD
          ((svc.primaryProviderIndex + i) % svc.providers.length) dummyProvider).name).state =
          .OPEN
      · rw [if_pos hcb]
        exact ih (i + 1) invoked lastError svc
      · rw [if_neg hcb]
        rcases hexec : CircuitBreaker.execute svc.config.circuitBreaker
            (EmailService.breakerOf svc (svc.providers.getD
              ((svc.primaryProviderIndex + i) % svc.providers.length) dummyProvider).name)
            now (svc.providers.getD
              ((svc.primaryProviderIndex + i) % svc.providers.length) dummyProvider).behavior
          with ⟨res, cbA, inv⟩
        rcases hrec : EmailService.recordAttempt svc msg.id (svc.providers.getD
            ((svc.primaryProviderIndex + i) % svc.providers.length) dummyProvider).name now
          with ⟨idx, svc1⟩
        have hsvc1 : svc1 = (EmailService.recordAttempt svc msg.id (svc.providers.getD
            ((svc.primaryProviderIndex + i) % svc.providers.length) dummyProvider).name now).2 := by
          rw [hrec]
        have hsvc1p : FallbackPreserves svc1 svc := by
          rw [hsvc1]
          exact ⟨recordAttempt_idem _ _ _ _, recordAttempt_config _ _ _ _,
            recordAttempt_providers _ _ _ _, recordAttempt_rate _ _ _ _⟩
        have hupd : ∀ (s : EmailService) (st : EmailStatus) (er : Option String)
            (du : Option Int),
            FallbackPreserves (EmailService.updateAttemptAt s msg.id idx st er du) s :=
          fun s st er du => ⟨rfl, rfl, rfl, rfl⟩
        have hsetb : ∀ (s : EmailService) (n : String) (cb : CircuitBreaker),
            FallbackPreserves (EmailService.setBreaker s n cb) s :=
          fun s n cb => ⟨rfl, rfl, rfl, rfl⟩
        have hprim : ∀ s : EmailService, FallbackPreserves
            { s with primaryProviderIndex :=
                (svc.primaryProviderIndex + i) % svc.providers.length } s :=
          fun s => ⟨rfl, rfl, rfl, rfl⟩
        cases inv with
        | false =>
            cases res with
            | ok r =>
                simp only [Bool.false_eq_true, if_false, if_true]
                by_cases hrs : r.success = true
                · rw [if_pos hrs]
                  by_cases hpp : (svc.primaryProviderIndex + i) % svc.providers.length ≠
                      svc.primaryProviderIndex
                  · rw [if_pos hpp]
                    exact fallbackPreserves_trans (hprim _) (hsetb svc _ cbA)
                  · rw [if_neg hpp]
                    exact hsetb svc _ cbA
                · rw [if_neg hrs]
                  exact fallbackPreserves_trans (ih (i + 1) _ lastError _)
                    (hsetb svc _ cbA)
            | err e =>
                simp only [Bool.false_eq_true, if_false, if_true]
                exact fallbackPreserves_trans (ih (i + 1) _ (some e) _) (hsetb svc _ cbA)
        | true =>
            cases res with
            | ok r =>
                simp only [Bool.false_eq_true, if_false, if_true]
                by_cases hrs : r.success = true
                · rw [if_pos hrs]
                  by_cases hpp : (svc.primaryProviderIndex + i) % svc.providers.length ≠
                      svc.primaryProviderIndex
                  · rw [if_pos hpp]
                    exact fallbackPreserves_trans (hprim _)
                      (fallbackPreserves_trans (hsetb _ _ _)
                        (fallbackPreserves_trans (hupd _ _ _ _) hsvc1p))
                  · rw [if_neg hpp]
                    exact fallbackPreserves_trans (hsetb _ _ _)
                      (fallbackPreserves_trans (hupd _ _ _ _) hsvc1p)
                · rw [if_neg hrs]
                  exact fallbackPreserves_trans (ih (i + 1) _ lastError _)
                    (fallbackPreserves_trans (hsetb _ _ _)
                      (fallbackPreserves_trans (hupd _ _ _ _) hsvc1p))
            | err e =>
                simp only [Bool.false_eq_true, if_false, if_true]
                exact fallbackPreserves_trans (ih (i + 1) _ (some e) _)
                  (fallbackPreserves_trans (hsetb _ _ _)
                    (fallbackPreserves_trans (hupd _ _ _ _) hsvc1p))

theorem sendWithFallback_preserves (svc : EmailService) (msg : EmailMessage) (now : Int) :
    FallbackPreserves (EmailService.sendWithFallback svc msg now).svc svc :=
  sendWithFallbackGo_preserves msg now svc.providers.length 0 0 none svc

theorem retryFallbackGo_preserves (msg : EmailMessage) (now : Int) :
    ∀ (remaining invoked : Nat) (svc : EmailService),
      FallbackPreserves
        (EmailService.retryFallbackGo msg now remaining svc invoked).svc svc := by
  intro remaining
  induction remaining with
  | zero =>
      intro invoked svc
      rw [EmailService.retryFallbackGo]
      rcases hres : (EmailService.sendWithFallback svc msg now).result with e | r
      · exact sendWithFallback_preserves svc msg now
      · exact sendWithFallback_preserves svc msg now
  | succ rem ihd =>
      intro invoked svc
      rw [EmailService.retryFallbackGo]
      rcases hres : (EmailService.sendWithFallback svc msg now).result with e | r
      · exact fallbackPreserves_trans (ihd _ _) (sendWithFallback_preserves svc msg now)
      · exact sendWithFallback_preserves svc msg now

/-- C6: with idempotency enabled, after a first `sendEmail` for a fresh message id
resolves successfully, a second `sendEmail` with the same id made while the record
is still live returns the very same cached outcome, touches no state, and invokes
no backend at all (zero provider invocations). -/
theorem sendEmail_idempotent_duplicate (svc : EmailService) (msg : EmailMessage)
    (now now2 : Int) (fuel fuel2 : Nat) (r : EmailSendResult) (svc1 : EmailService) (k : Nat)
    (henb : svc.config.enableIdempotency = true)
    (hrec0 : lookupA svc.idempotencyRecords msg.id = none)
    (h1 : EmailService.sendEmail svc msg now fuel = some (r, svc1, k))
    (hs : r.success = true)
    (hlive : now2 - now ≤ svc.config.idempotencyTtlMs) :
    EmailService.sendEmail svc1 msg now2 fuel2 = some (r, svc1, 0) := by
  rw [EmailService.sendEmail] at h1
  simp only [Idempotency.isDuplicate, hrec0, henb, eq_self_iff_true, if_true,
    Bool.false_eq_true, if_false] at h1
  rcases hlim : checkRateLimit svc.config.rateLimit fuel svc.rateLimiterRequests now
    with _ | ⟨t1, reqs⟩
  · rw [hlim] at h1
    exact absurd h1 (by simp)
  rw [hlim] at h1
  set svcC : EmailService := { svc with
    rateLimiterRequests := reqs
    idempotencyRecords := Idempotency.markInProgress svc.idempotencyRecords msg.id now }
    with hsvcC
  have hpres := retryFallbackGo_preserves msg t1 svc.config.retry.maxRetries 0 svcC
  have hcfgenb : (EmailService.retryFallbackGo msg t1 svc.config.retry.maxRetries
      svcC 0).svc.config.enableIdempotency = true := by
    rw [hpres.2.1]
    exact henb
  simp only [hcfgenb, eq_self_iff_true, if_true] at h1
  rcases hres : (EmailService.retryFallbackGo msg t1 svc.config.retry.maxRetries
      svcC 0).result with e | res
  · rw [hres] at h1
    simp only [Option.some.injEq, Prod.mk.injEq] at h1
    obtain ⟨h1r, h1s, h1k⟩ := h1
    rw [← h1r] at hs
    simp at hs
  · rw [hres] at h1
    simp only [Option.some.injEq, Prod.mk.injEq] at h1
    obtain ⟨h1r, h1s, h1k⟩ := h1
    have hconf1 : svc1.config = svc.config := by
      rw [← h1s]
      exact hpres.2.1
    have hlook : lookupA svc1.idempotencyRecords msg.id =
        some { emailId := msg.id, timestamp := now, result := some res, completed := true } := by
      rw [← h1s]
      show lookupA (Idempotency.markCompleted (EmailService.retryFallbackGo msg t1
        svc.config.retry.maxRetries svcC 0).svc.idempotencyRecords msg.id res) msg.id = _
      rw [hpres.1]
      show lookupA (Idempotency.markCompleted
        (Idempotency.markInProgress svc.idempotencyRecords msg.id now) msg.id res) msg.id = _
      rw [Idempotency.markCompleted, Idempotency.markInProgress, lookupA_setA_self]
      rw [lookupA_setA_self]
    have henb1 : svc1.config.enableIdempotency = true := by
      rw [hconf1]
      exact henb
    have hnex : Idempotency.isExpired svc1.config.idempotencyTtlMs
        { emailId := msg.id, timestamp := now, result := some res, completed := true } now2 =
        false := by
      rw [hconf1]
      simp only [Idempotency.isExpired, decide_eq_false_iff_not]
      omega
    have hdup : Idempotency.isDuplicate svc1.idempotencyRecords
        svc1.config.idempotencyTtlMs msg.id now2 = (true, svc1.idempotencyRecords) := by
      rw [Idempotency.isDuplicate, hlook]
      simp only [hnex, Bool.false_eq_true, if_false]
    have hget : Idempotency.getResult svc1.idempotencyRecords
        svc1.config.idempotencyTtlMs msg.id now2 = some res := by
      rw [Idempotency.getResult, hlook]
      simp only [hnex, Bool.false_eq_true, false_or]
      simp
    rw [EmailService.sendEmail]
    simp only [henb1, eq_self_iff_true, if_true, hdup, hget]
    rw [h1r]

/-- Witness for `sendEmail_idempotent_duplicate`: a concrete first send at t = 1000
caches its outcome; the duplicate at t = 2000 returns the same outcome with zero
provider invocations and an unchanged service. -/
theorem sendEmail_idempotent_duplicate_witness :
    EmailService.sendEmail okSvc probeMsg 1000 3 =
      some ({ success := true, messageId := some "ok-1", duration := 1 }, okSvcAfter, 1) ∧
    EmailService.sendEmail okSvcAfter probeMsg 2000 3 =
      some ({ success := true, messageId := some "ok-1", duration := 1 }, okSvcAfter, 0) := by
  constructor
  · decide
  · exact sendEmail_idempotent_duplicate okSvc probeMsg 1000 2000 3 3
      { success := true, messageId := some "ok-1", duration := 1 } okSvcAfter 1
      rfl rfl (by decide) rfl (by decide)

/-! Unique-key facts for the JS `Map` model (a `Map` never holds two entries for
one key, so the model's association lists have `Nodup` key lists). -/

theorem lookupA_eq_none_iff (k : String) :
    ∀ l : List (String × β), lookupA l k = none ↔ k ∉ l.map Prod.fst := by
  intro l
  induction l with
  | nil => simp [lookupA]
  | cons p rest ih =>
      obtain ⟨k0, v0⟩ := p
      by_cases h : k0 = k
      · subst h
        simp [lookupA, List.find?_cons]
      · simp only [lookupA, List.find?_cons] at ih ⊢
        rw [decide_eq_false h]
        simp only [List.map_cons, List.mem_cons]
        constructor
        · intro hl hc
          rcases hc with hc | hc
          · exact h hc.symm
          · exact (ih.mp hl) hc
        · intro hni
          exact ih.mpr (fun hc => hni (Or.inr hc))

theorem mem_keys_setA (k k' : String) (v : β) :
    ∀ l : List (String × β), k' ∈ (setA l k v).map Prod.fst →
      k' ∈ l.map Prod.fst ∨ k' = k := by
  intro l
  induction l with
  | nil =>
      intro h
      simp [setA] at h
      exact Or.inr h
  | cons p rest ih =>
      obtain ⟨k0, v0⟩ := p
      intro h
      rw [setA] at h
      by_cases h0 : k0 = k
      · rw [if_pos h0] at h
        simp only [List.map_cons, List.mem_cons] at h ⊢
        rcases h with h | h
        · exact Or.inr h
        · exact Or.inl (Or.inr h)
      · rw [if_neg h0] at h
        simp only [List.map_cons, List.mem_cons] at h ⊢
        rcases h with h | h
        · exact Or.inl (Or.inl h)
        · rcases ih h with h' | h'
          · exact Or.inl (Or.inr h')
          · exact Or.inr h'

theorem nodup_keys_setA (k : String) (v : β) :
    ∀ l : List (String × β), (l.map Prod.fst).Nodup →
      ((setA l k v).map Prod.fst).Nodup := by
  intro l
  induction l with
  | nil => intro _; simp [setA]
  | cons p rest ih =>
      obtain ⟨k0, v0⟩ := p
      intro hnd
      simp only [List.map_cons, List.nodup_cons] at hnd
      rw [setA]
      by_cases h0 : k0 = k
      · rw [if_pos h0]
        simp only [List.map_cons, List.nodup_cons]
        exact ⟨by rw [← h0]; exact hnd.1, hnd.2⟩
      · rw [if_neg h0]
        simp only [List.map_cons, List.nodup_cons]
        refine ⟨?_, ih hnd.2⟩
        intro hc
        rcases mem_keys_setA k k0 v rest hc with h' | h'
        · exact hnd.1 h'
        · exact h0 h'

theorem lookupA_eraseA_self (k : String) :
    ∀ l : List (String × β), (l.map Prod.fst).Nodup →
      lookupA (eraseA l k) k = none := by
  intro l
  induction l with
  | nil => intro _; simp [eraseA, lookupA]
  | cons p rest ih =>
      obtain ⟨k0, v0⟩ := p
      intro hnd
      simp only [List.map_cons, List.nodup_cons] at hnd
      rw [eraseA]
      by_cases h0 : k0 = k
      · rw [if_pos h0]
        rw [lookupA_eq_none_iff]
        rw [← h0]
        exact hnd.1
      · rw [if_neg h0]
        simp only [lookupA, List.find?_cons]
        rw [decide_eq_false h0]
        exact ih hnd.2

/-! The fallback loop with backends that all reject. -/

theorem sendWithFallbackGo_allReject (msg : EmailMessage) (now : Int) :
    ∀ (remaining i invoked : Nat) (lastError : Option String) (svc : EmailService),
      remaining ≤ svc.providers.length →
      (∀ p ∈ svc.providers, ∃ e, p.behavior = .err e) →
      ∃ e', (EmailService.sendWithFallbackGo msg now remaining i lastError invoked svc).result =
        .error e' := by
  intro remaining
  induction remaining with
  | zero =>
      intro i invoked lastError svc _ _
      rw [EmailService.sendWithFallbackGo]
      exact ⟨lastError.getD "All providers failed", rfl⟩
  | succ rem ih =>
      intro i invoked lastError svc hrem hb
      rw [EmailService.sendWithFallbackGo]
      by_cases hcb : (EmailService.breakerOf svc (svc.providers.getD
          ((svc.primaryProviderIndex + i) % svc.providers.length) dummyProvider).name).state =
          .OPEN
      · rw [if_pos hcb]
        exact ih (i + 1) invoked lastError svc (by omega) hb
      · rw [if_neg hcb]
        have hlen : 0 < svc.providers.length := by omega
        have hidx : (svc.primaryProviderIndex + i) % svc.providers.length <
            svc.providers.length := Nat.mod_lt _ hlen
        have hmem : svc.providers.getD
            ((svc.primaryProviderIndex + i) % svc.providers.length) dummyProvider ∈
            svc.providers := by
          rw [List.getD_eq_getElem?_getD, List.getElem?_eq_getElem hidx]
          exact List.getElem_mem hidx
        obtain ⟨e, hbe⟩ := hb _ hmem
        rw [hbe]
        have hexec : CircuitBreaker.execute svc.config.circuitBreaker
            (EmailService.breakerOf svc (svc.providers.getD
              ((svc.primaryProviderIndex + i) % svc.providers.length) dummyProvider).name)
            now (OpResult.err (α := EmailSendResult) e) =
            ⟨.err e, CircuitBreaker.onFailure svc.config.circuitBreaker
              (EmailService.breakerOf svc (svc.providers.getD
                ((svc.primaryProviderIndex + i) % svc.providers.length) dummyProvider).name)
              now, true⟩ := by
          rw [CircuitBreaker.execute, if_neg hcb]
        rw [hexec]
        rcases hrec : EmailService.recordAttempt svc msg.id (svc.providers.getD
            ((svc.primaryProviderIndex + i) % svc.providers.length) dummyProvider).name now
          with ⟨idx, svc1⟩
        simp only [if_true, eq_self_iff_true]
        have hsvc1 : svc1 = (EmailService.recordAttempt svc msg.id (svc.providers.getD
            ((svc.primaryProviderIndex + i) % svc.providers.length) dummyProvider).name
            now).2 := by
          rw [hrec]
        have hprov1 : (EmailService.setBreaker
            (EmailService.updateAttemptAt svc1 msg.id idx .FAILED (some e) none)
            (svc.providers.getD ((svc.primaryProviderIndex + i) % svc.providers.length)
              dummyProvider).name
            (CircuitBreaker.onFailure svc.config.circuitBreaker
              (EmailService.breakerOf svc (svc.providers.getD
                ((svc.primaryProviderIndex + i) % svc.providers.length) dummyProvider).name)
              now)).providers = svc.providers := by
          rw [setBreaker_providers, updateAttemptAt_providers, hsvc1, recordAttempt_providers]
        obtain ⟨e', he'⟩ := ih (i + 1) (invoked + 1) (some e) _ (by rw [hprov1]; omega)
          (by rw [hprov1]; exact hb)
        exact ⟨e', he'⟩

theorem retryFallbackGo_allReject (msg : EmailMessage) (now : Int) :
    ∀ (remaining invoked : Nat) (svc : EmailService),
      (∀ p ∈ svc.providers, ∃ e, p.behavior = .err e) →
      ∃ e', (EmailService.retryFallbackGo msg now remaining svc invoked).result = .error e' := by
  have hfb : ∀ (svc : EmailService), (∀ p ∈ svc.providers, ∃ e, p.behavior = .err e) →
      ∃ e', (EmailService.sendWithFallback svc msg now).result = .error e' := by
    intro svc hb
    exact sendWithFallbackGo_allReject msg now svc.providers.length 0 0 none svc le_rfl hb
  intro remaining
  induction remaining with
  | zero =>
      intro invoked svc hb
      rw [EmailService.retryFallbackGo]
      rcases hres : (EmailService.sendWithFallback svc msg now).result with e | r
      · exact ⟨e, rfl⟩
      · obtain ⟨e'', he''⟩ := hfb svc hb
        rw [hres] at he''
        cases he''
  | succ rem ih =>
      intro invoked svc hb
      rw [EmailService.retryFallbackGo]
      rcases hres : (EmailService.sendWithFallback svc msg now).result with e | r
      · exact ih _ _ (by rw [(sendWithFallback_preserves svc msg now).2.2.1]; exact hb)
      · obtain ⟨e'', he''⟩ := hfb svc hb
        rw [hres] at he''
        cases he''

/-- C7: with idempotency enabled, a fresh `sendEmail` against backends that all
reject never surfaces a fault: whenever the call resolves it yields a plain
outcome with `success = false` carrying the terminal error description, and the
message id's idempotency record has been removed, so a later send with the same id
is not locked out. -/
theorem sendEmail_failure_contract (svc : EmailService) (msg : EmailMessage) (now : Int)
    (fuel : Nat) (r : EmailSendResult) (svc1 : EmailService) (k : Nat)
    (henb : svc.config.enableIdempotency = true)
    (hkeys : (svc.idempotencyRecords.map Prod.fst).Nodup)
    (hrec0 : lookupA svc.idempotencyRecords msg.id = none)
    (hb : ∀ p ∈ svc.providers, ∃ e, p.behavior = .err e)
    (h1 : EmailService.sendEmail svc msg now fuel = some (r, svc1, k)) :
    ∃ e, r = { success := false, messageId := none, error := some e, duration := 0 } ∧
      lookupA svc1.idempotencyRecords msg.id = none := by
  rw [EmailService.sendEmail] at h1
  simp only [Idempotency.isDuplicate, hrec0, henb, eq_self_iff_true, if_true,
    Bool.false_eq_true, if_false] at h1
  rcases hlim : checkRateLimit svc.config.rateLimit fuel svc.rateLimiterRequests now
    with _ | ⟨t1, reqs⟩
  · rw [hlim] at h1
    exact absurd h1 (by simp)
  rw [hlim] at h1
  set svcC : EmailService := { svc with
    rateLimiterRequests := reqs
    idempotencyRecords := Idempotency.markInProgress svc.idempotencyRecords msg.id now }
    with hsvcC
  have hpres := retryFallbackGo_preserves msg t1 svc.config.retry.maxRetries 0 svcC
  have hcfgenb : (EmailService.retryFallbackGo msg t1 svc.config.retry.maxRetries
      svcC 0).svc.config.enableIdempotency = true := by
    rw [hpres.2.1]
    exact henb
  simp only [hcfgenb, eq_self_iff_true, if_true] at h1
  obtain ⟨e', he'⟩ := retryFallbackGo_allReject msg t1 svc.config.retry.maxRetries 0 svcC hb
  rw [he'] at h1
  simp only [Option.some.injEq, Prod.mk.injEq] at h1
  obtain ⟨h1r, h1s, h1k⟩ := h1
  refine ⟨e', h1r.symm, ?_⟩
  rw [← h1s]
  show lookupA (Idempotency.removeRecord (EmailService.retryFallbackGo msg t1
    svc.config.retry.maxRetries svcC 0).svc.idempotencyRecords msg.id) msg.id = none
  rw [hpres.1]
  show lookupA (Idempotency.removeRecord
    (Idempotency.markInProgress svc.idempotencyRecords msg.id now) msg.id) msg.id = none
  rw [Idempotency.removeRecord, Idempotency.markInProgress]
  exact lookupA_eraseA_self msg.id _ (nodup_keys_setA msg.id _ svc.idempotencyRecords hkeys)

/-- Witness for `sendEmail_failure_contract`: the always-rejecting backend makes the
concrete send resolve (not throw) to a `success = false` outcome carrying the
backend's error — after one retry, so two invocations — and the idempotency record
for the id is gone afterwards. -/
theorem sendEmail_failure_contract_witness :
    EmailService.sendEmail rejectSvc probeMsg 1000 3 =
      some ({ success := false, messageId := none, error := some "smtp 550", duration := 0 },
        rejectSvcAfter, 2) ∧
    lookupA rejectSvcAfter.idempotencyRecords "m1" = none := by
  obtain ⟨e, hre, hlook⟩ := sendEmail_failure_contract rejectSvc probeMsg 1000 3
    { success := false, messageId := none, error := some "smtp 550", duration := 0 }
    rejectSvcAfter 2 rfl (by decide) rfl
    (fun p hp => by
      have hp' : p = ⟨"Primary", .err "smtp 550"⟩ := by
        simpa [rejectSvc, EmailService.mkService] using hp
      rw [hp']
      exact ⟨"smtp 550", rfl⟩)
    (by decide)
  exact ⟨by decide, hlook⟩

end EmailSvc
